import Mathlib

/-!
Shallow embedding of the stock-reservation / order-lifecycle core of the
DSlighting27 rental application (src/core/models.py, views.py, admin.py,
utils.py, signals.py).

The persistent store is modelled as lists of rows; Django row updates become
keyed list replacement, autoincrement primary keys become an explicit
`nextId` counter, `timezone.now()` becomes an integer timestamp in seconds,
and Decimal money amounts become integers.  Each Django view / admin action /
utility function is translated into a pure function on the database state,
including the `post_save` signal handlers, which in Django run after the row
has been written (so the re-read of the row by the handler observes the new
values — this ordering is modelled faithfully).
-/

namespace DSlighting

/-- `Penyewaan.STATUS_CHOICES` in models.py. -/
inductive OrderStatus where
  | pending
  | confirmed
  | cancelled
  | completed
deriving DecidableEq, Repr

/-- `Transaksi.STATUS_CHOICES` lists pending/paid/failed; the admin bulk
action additionally assigns the string `verified`, which the CharField
accepts, so it is part of the value space. -/
inductive TransStatus where
  | pending
  | paid
  | failed
  | verified
deriving DecidableEq, Repr

/-- `Notifikasi.JENIS_CHOICES`. -/
inductive NotifJenis where
  | info
  | warning
  | danger
  | success
deriving DecidableEq, Repr

/-- `Paket`: id, unit price (`harga`), stock count (`stok`). -/
structure Paket where
  id : Nat
  harga : Int
  stok : Int
deriving DecidableEq, Repr

/-- `Penyewaan` (order): customer user id, nullable package FK (`SET_NULL`),
install date, shipping cost, status, creation timestamp. -/
structure Penyewaan where
  id : Nat
  pelangganUser : Nat
  paket : Option Nat
  tglPasang : Int
  ongkosKirim : Int
  status : OrderStatus
  tanggalDibuat : Int
deriving DecidableEq, Repr

/-- `DetailPenyewaan` (order line): owning order, quantity, unit price
snapshot. -/
structure DetailPenyewaan where
  penyewaan : Nat
  jumlah : Nat
  hargaSatuan : Int
deriving DecidableEq, Repr

/-- `Transaksi` (payment): owning order, amount, status, optional payment
proof (`bukti_bayar`). -/
structure Transaksi where
  id : Nat
  penyewaan : Nat
  jumlahBayar : Int
  status : TransStatus
  buktiBayar : Option Nat
deriving DecidableEq, Repr

/-- `Notifikasi`: target user (`none` = broadcast to staff), kind, title. -/
structure Notifikasi where
  user : Option Nat
  jenis : NotifJenis
  judul : String
deriving DecidableEq, Repr

/-- The persistent store: one list of rows per model, plus the autoincrement
counter used for fresh `Penyewaan` / `Transaksi` primary keys. -/
structure DB where
  pakets : List Paket
  penyewaans : List Penyewaan
  details : List DetailPenyewaan
  transaksis : List Transaksi
  notifs : List Notifikasi
  nextId : Nat
deriving DecidableEq, Repr

/-! ### Keyed row lookup and replacement -/

/-- Row lookup by primary key. -/
def findBy {α : Type} (key : α → Nat) (k : Nat) (l : List α) : Option α :=
  l.find? (fun y => key y == k)

/-- Row update (`obj.save()` on an existing row): replace the row whose key
matches. -/
def replaceBy {α : Type} (key : α → Nat) (x : α) (l : List α) : List α :=
  l.map (fun y => if key y = key x then x else y)

def findPaket (db : DB) (pid : Nat) : Option Paket :=
  findBy Paket.id pid db.pakets

def findPenyewaan (db : DB) (oid : Nat) : Option Penyewaan :=
  findBy Penyewaan.id oid db.penyewaans

def findTransaksi (db : DB) (tid : Nat) : Option Transaksi :=
  findBy Transaksi.id tid db.transaksis

def updatePaket (db : DB) (p : Paket) : DB :=
  { db with pakets := replaceBy Paket.id p db.pakets }

def updatePenyewaan (db : DB) (o : Penyewaan) : DB :=
  { db with penyewaans := replaceBy Penyewaan.id o db.penyewaans }

def updateTransaksi (db : DB) (t : Transaksi) : DB :=
  { db with transaksis := replaceBy Transaksi.id t db.transaksis }

def addNotif (db : DB) (n : Notifikasi) : DB :=
  { db with notifs := db.notifs ++ [n] }

/-- `order.detailpenyewaan_set.first()`. -/
def firstDetail (db : DB) (oid : Nat) : Option DetailPenyewaan :=
  db.details.find? (fun d => d.penyewaan == oid)

/-- `Paket.is_available` in models.py: `stok >= jumlah_diminta`. -/
def is_available (p : Paket) (jumlahDiminta : Nat) : Bool :=
  decide ((jumlahDiminta : Int) ≤ p.stok)

/-- `Penyewaan.total_harga`: sum of `jumlah * harga_satuan` over the detail
lines of the order, plus `ongkos_kirim`. -/
def total_harga (db : DB) (oid : Nat) (ongkosKirim : Int) : Int :=
  ((db.details.filter (fun d => d.penyewaan == oid)).map
    (fun d => (d.jumlah : Int) * d.hargaSatuan)).sum + ongkosKirim

/-! ### Signal handlers (signals.py)

Both handlers are `post_save` receivers: they run after the row has been
written, so any re-read of the row by primary key returns the freshly saved
values. -/

def pelangganUserOf (db : DB) (oid : Nat) : Nat :=
  match findPenyewaan db oid with
  | some o => o.pelangganUser
  | none => 0

/-- `create_payment_notification` (signals.py): compares the status of the saved
instance with a fresh DB read of the same row.  It is invoked on the
post-write database state, exactly as the Django hook `post_save` does. -/
def create_payment_notification (db : DB) (inst : Transaksi) : DB :=
  match findTransaksi db inst.id with
  | none => db
  | some old =>
    if old.status ≠ inst.status then
      if inst.status = TransStatus.verified then
        addNotif db { user := some (pelangganUserOf db inst.penyewaan),
                      jenis := NotifJenis.success, judul := "Pembayaran Diterima" }
      else if inst.status = TransStatus.failed then
        addNotif db { user := some (pelangganUserOf db inst.penyewaan),
                      jenis := NotifJenis.danger, judul := "Bukti Bayar Ditolak" }
      else db
    else db

/-- `transaksi.save()` on an existing row, followed by the `post_save`
signal `create_payment_notification` observing the post-write state. -/
def saveTransaksi (db : DB) (t : Transaksi) : DB :=
  create_payment_notification (updateTransaksi db t) t

/-! ### Booking Intake (views.py `booking_view`) -/

inductive BookResult where
  | ok (orderId : Nat)
  | insufficientStock
  | notFound
deriving DecidableEq, Repr

/-- `booking_view` (views.py): lock the package row, check availability,
then atomically decrement stock, create the order (pending), its single
detail line (unit price snapshotted from the package), and its payment
(pending, amount = order total).  Creating the order fires
`create_booking_notification` (one staff notification, one customer
notification); creating the payment fires `create_payment_notification`,
whose fresh re-read sees the just-written row. -/
def booking_view (db : DB) (pelangganUser : Nat) (paketId : Nat) (jumlah : Nat)
    (tglPasang : Int) (now : Int) : BookResult × DB :=
  match findPaket db paketId with
  | none => (BookResult.notFound, db)
  | some paket =>
    if is_available paket jumlah then
      let oid := db.nextId
      let tid := db.nextId + 1
      let db1 := updatePaket db { paket with stok := paket.stok - (jumlah : Int) }
      let order : Penyewaan :=
        { id := oid, pelangganUser := pelangganUser, paket := some paketId,
          tglPasang := tglPasang, ongkosKirim := 0,
          status := OrderStatus.pending, tanggalDibuat := now }
      let db2 := { db1 with penyewaans := db1.penyewaans ++ [order] }
      let db3 := addNotif db2 { user := none, jenis := NotifJenis.info,
                                judul := "Pesanan Baru" }
      let db4 := addNotif db3 { user := some pelangganUser, jenis := NotifJenis.success,
                                judul := "Pesanan Berhasil" }
      let detail : DetailPenyewaan :=
        { penyewaan := oid, jumlah := jumlah, hargaSatuan := paket.harga }
      let db5 := { db4 with details := db4.details ++ [detail] }
      let t : Transaksi :=
        { id := tid, penyewaan := oid,
          jumlahBayar := total_harga db5 oid order.ongkosKirim,
          status := TransStatus.pending, buktiBayar := none }
      let db6 := { db5 with transaksis := db5.transaksis ++ [t], nextId := db.nextId + 2 }
      (BookResult.ok oid, create_payment_notification db6 t)
    else (BookResult.insufficientStock, db)

/-! ### Staff status edit (admin.py `PenyewaanAdmin.save_model`) -/

/-- Membership in the Python list of active statuses, pending and confirmed. -/
def isActive : OrderStatus → Bool
  | OrderStatus.pending => true
  | OrderStatus.confirmed => true
  | _ => false

/-- Membership in the Python list of inactive statuses, completed and cancelled. -/
def isInactive : OrderStatus → Bool
  | OrderStatus.completed => true
  | OrderStatus.cancelled => true
  | _ => false

/-- Messages emitted by `save_model` via `message_user`. -/
inductive AdminMsg where
  | stockReturned (n : Nat)
  | stockReduced (n : Nat)
  | insufficientStock
deriving DecidableEq, Repr

/-- `PenyewaanAdmin.save_model` for a status edit of an existing order:
active→inactive releases the quantity of the first detail line back to the
package; inactive→active re-reserves it, and when the stock cannot cover it
the status change is reverted and an error message is shown.  The final
the final save writes the (possibly reverted) object; the `post_save`
handler of the order model does nothing on updates. -/
def save_model (db : DB) (orderId : Nat) (newStatus : OrderStatus) :
    DB × List AdminMsg :=
  match findPenyewaan db orderId with
  | none => (db, [])
  | some oldObj =>
    let oldStatus := oldObj.status
    let obj := { oldObj with status := newStatus }
    if isActive oldStatus && isInactive newStatus then
      match firstDetail db orderId, obj.paket.bind (findPaket db) with
      | some d, some p =>
        let db1 := updatePaket db { p with stok := p.stok + (d.jumlah : Int) }
        (updatePenyewaan db1 obj, [AdminMsg.stockReturned d.jumlah])
      | _, _ => (updatePenyewaan db obj, [])
    else if isInactive oldStatus && isActive newStatus then
      match firstDetail db orderId, obj.paket.bind (findPaket db) with
      | some d, some p =>
        if (d.jumlah : Int) ≤ p.stok then
          let db1 := updatePaket db { p with stok := p.stok - (d.jumlah : Int) }
          (updatePenyewaan db1 obj, [AdminMsg.stockReduced d.jumlah])
        else
          (updatePenyewaan db { obj with status := oldStatus },
           [AdminMsg.insufficientStock])
      | _, _ => (updatePenyewaan db obj, [])
    else (updatePenyewaan db obj, [])

/-! ### Bulk payment verification (admin.py
`PenyewaanAdmin.konfirmasi_pembayaran_masal`) -/

/-- One iteration of the bulk-verify loop: if the order is pending and has a
transaction with status `paid`, atomically set the transaction to `verified`
and the order to `confirmed` (returning `true` = verified); otherwise leave
everything unchanged (`false` = skipped). -/
def verifyOne (db : DB) (oid : Nat) : DB × Bool :=
  match findPenyewaan db oid with
  | none => (db, false)
  | some o =>
    if o.status = OrderStatus.pending then
      match db.transaksis.find?
          (fun t => t.penyewaan == oid && t.status == TransStatus.paid) with
      | some t =>
        let db1 := saveTransaksi db { t with status := TransStatus.verified }
        (updatePenyewaan db1 { o with status := OrderStatus.confirmed }, true)
      | none => (db, false)
    else (db, false)

/-- One loop iteration of the bulk action together with its verified/skipped
counters. -/
def verifyStep (acc : DB × Nat × Nat) (oid : Nat) : DB × Nat × Nat :=
  let r := verifyOne acc.1 oid
  if r.2 then (r.1, acc.2.1 + 1, acc.2.2) else (r.1, acc.2.1, acc.2.2 + 1)

/-- The bulk action: fold `verifyStep` over the selected batch, counting
verified and skipped orders. -/
def konfirmasi_pembayaran_masal (db : DB) (batch : List Nat) : DB × Nat × Nat :=
  batch.foldl verifyStep (db, 0, 0)

/-! ### Expiry sweep (utils.py `cancel_expired_pending_orders`) -/

/-- The queryset filter: status `pending`, created strictly before
`now - 2 hours`, and no related transaction carrying a payment proof
(`exclude(transaksi__bukti_bayar__isnull=False)`). -/
def expiredFilter (db : DB) (now : Int) (o : Penyewaan) : Bool :=
  o.status == OrderStatus.pending &&
  decide (o.tanggalDibuat < now - 7200) &&
  !(db.transaksis.any (fun t => t.penyewaan == o.id && t.buktiBayar.isSome))

/-- The customer notification emitted by the sweep for one cancelled
order. -/
def warnNotif (o : Penyewaan) : Notifikasi :=
  { user := some o.pelangganUser, jenis := NotifJenis.warning,
    judul := "Pesanan Dibatalkan" }

/-- The sweep loop body for one selected order: restore the quantity of the
first detail line to the package when both the detail and the package exist,
set the status of the order to `cancelled`, and create the customer warning
notification. -/
def sweepOne (db : DB) (o : Penyewaan) : DB :=
  let db1 :=
    match firstDetail db o.id, o.paket.bind (findPaket db) with
    | some d, some p => updatePaket db { p with stok := p.stok + (d.jumlah : Int) }
    | _, _ => db
  let db2 := updatePenyewaan db1 { o with status := OrderStatus.cancelled }
  addNotif db2 (warnNotif o)

/-- `cancel_expired_pending_orders`: evaluate the queryset once against the
current state, then process each selected order in turn; returns the number
of orders cancelled. -/
def cancel_expired_pending_orders (db : DB) (now : Int) : Nat × DB :=
  let expired := db.penyewaans.filter (expiredFilter db now)
  (expired.length, expired.foldl sweepOne db)

/-! ### Staff stock decrement (admin.py `PaketAdmin.mark_units_as_broken`) -/

/-- The loop body of `mark_units_as_broken`: for one selected package,
decrement its stock by one if it is positive, else leave it alone. -/
def brokenStep (acc : DB × Nat) (pid : Nat) : DB × Nat :=
  match findPaket acc.1 pid with
  | some p =>
    if 0 < p.stok then (updatePaket acc.1 { p with stok := p.stok - 1 }, acc.2 + 1)
    else acc
  | none => acc

/-- For each selected package with positive stock, decrement by one. -/
def mark_units_as_broken (db : DB) (batch : List Nat) : DB × Nat :=
  batch.foldl brokenStep (db, 0)

/-! ### Payment-proof upload (views.py `upload_payment_view`) -/

/-- The successful upload path: set `bukti_bayar` and status `paid`, then
save (firing the payment `post_save` handler on the post-write state). -/
def upload_payment_view (db : DB) (tid : Nat) (proof : Nat) : DB :=
  match findTransaksi db tid with
  | none => db
  | some t => saveTransaksi db { t with buktiBayar := some proof, status := TransStatus.paid }

/-! ### Derived observations used by the statements -/

/-- Current stock of a package id (0 if absent). -/
def stokOf (db : DB) (pid : Nat) : Int :=
  match findPaket db pid with
  | some p => p.stok
  | none => 0

/-- Current status of an order id. -/
def statusOf (db : DB) (oid : Nat) : Option OrderStatus :=
  (findPenyewaan db oid).map Penyewaan.status

/-- The reserved quantity of an order: the quantity of its single (first)
detail line. -/
def orderQty (details : List DetailPenyewaan) (oid : Nat) : Int :=
  match details.find? (fun d => d.penyewaan == oid) with
  | some d => (d.jumlah : Int)
  | none => 0

/-- The contribution of one order to the reserved quantity of package
`pid`: its first-line quantity when the order is active (pending or
confirmed) and references the package, else zero. -/
def resTerm (details : List DetailPenyewaan) (pid : Nat) (o : Penyewaan) : Int :=
  if isActive o.status && o.paket == some pid then orderQty details o.id else 0

/-- Total quantity currently held against package `pid` by active
(pending/confirmed) orders. -/
def reservedQty (db : DB) (pid : Nat) : Int :=
  (db.penyewaans.map (resTerm db.details pid)).sum

/-- The conservation relation between two stores: for every package id, the
available stock plus the actively reserved quantity is unchanged. -/
def conserved (db db2 : DB) : Prop :=
  ∀ pid, stokOf db2 pid + reservedQty db2 pid = stokOf db pid + reservedQty db pid

/-- Transactions belonging to one order. -/
def transOf (db : DB) (oid : Nat) : List Transaksi :=
  db.transaksis.filter (fun t => t.penyewaan == oid)

/-- Well-formedness of the store, as Django guarantees it: primary keys are
unique and below the autoincrement counter, foreign keys of detail lines and
transactions point below the counter, and a non-null package reference of an
order points at an existing package row (`on_delete=SET_NULL` forbids
dangling references). -/
def WF (db : DB) : Prop :=
  (db.pakets.map Paket.id).Nodup ∧
  (db.penyewaans.map Penyewaan.id).Nodup ∧
  (db.transaksis.map Transaksi.id).Nodup ∧
  (∀ o ∈ db.penyewaans, o.id < db.nextId) ∧
  (∀ d ∈ db.details, d.penyewaan < db.nextId) ∧
  (∀ t ∈ db.transaksis, t.id < db.nextId ∧ t.penyewaan < db.nextId) ∧
  (∀ o ∈ db.penyewaans, ∀ pid ∈ o.paket.toList, pid ∈ db.pakets.map Paket.id)

instance (db : DB) : Decidable (WF db) := by
  unfold WF; infer_instance

/-! ### Lemmas about keyed lookup and replacement -/

theorem findBy_cons {α : Type} (key : α → Nat) (y : α) (l : List α) (k : Nat) :
    findBy key k (y :: l) = if key y = k then some y else findBy key k l := by
  by_cases h : key y = k <;> simp [findBy, List.find?_cons, h]

theorem replaceBy_cons {α : Type} (key : α → Nat) (x y : α) (l : List α) :
    replaceBy key x (y :: l) =
      (if key y = key x then x else y) :: replaceBy key x l := rfl

theorem findBy_replaceBy_ne {α : Type} (key : α → Nat) (x : α) (k : Nat)
    (hk : key x ≠ k) (l : List α) :
    findBy key k (replaceBy key x l) = findBy key k l := by
  induction l with
  | nil => rfl
  | cons y l ih =>
    rw [replaceBy_cons]
    by_cases h : key y = key x
    · rw [if_pos h, findBy_cons, findBy_cons, if_neg hk,
        if_neg (fun hyk => hk (h.symm.trans hyk)), ih]
    · rw [if_neg h, findBy_cons, findBy_cons]
      by_cases h2 : key y = k
      · rw [if_pos h2, if_pos h2]
      · rw [if_neg h2, if_neg h2, ih]

theorem findBy_replaceBy_eq {α : Type} (key : α → Nat) (x : α) (l : List α)
    (h : (findBy key (key x) l).isSome) :
    findBy key (key x) (replaceBy key x l) = some x := by
  induction l with
  | nil => simp [findBy] at h
  | cons y l ih =>
    rw [replaceBy_cons]
    by_cases hy : key y = key x
    · rw [if_pos hy, findBy_cons, if_pos rfl]
    · rw [if_neg hy, findBy_cons, if_neg hy]
      rw [findBy_cons, if_neg hy] at h
      exact ih h

theorem replaceBy_of_forall_ne {α : Type} (key : α → Nat) (x : α) (l : List α)
    (h : ∀ z ∈ l, key z ≠ key x) : replaceBy key x l = l := by
  induction l with
  | nil => rfl
  | cons y l ih =>
    rw [replaceBy_cons, if_neg (h y (List.mem_cons_self y l))]
    rw [ih (fun z hz => h z (List.mem_cons_of_mem y hz))]

theorem replaceBy_self {α : Type} (key : α → Nat) (x : α) (l : List α)
    (h : findBy key (key x) l = some x) (hnd : (l.map key).Nodup) :
    replaceBy key x l = l := by
  induction l with
  | nil => rfl
  | cons y l ih =>
    rw [List.map_cons, List.nodup_cons] at hnd
    rw [findBy_cons] at h
    by_cases hy : key y = key x
    · rw [if_pos hy] at h
      cases h
      rw [replaceBy_cons, if_pos hy]
      have : ∀ z ∈ l, key z ≠ key x := by
        intro z hz hzx
        exact hnd.1 (hzx ▸ List.mem_map_of_mem key hz)
      rw [replaceBy_of_forall_ne key x l this]
    · rw [if_neg hy] at h
      rw [replaceBy_cons, if_neg hy, ih h hnd.2]

theorem findBy_eq_none_iff {α : Type} (key : α → Nat) (k : Nat) (l : List α) :
    findBy key k l = none ↔ ∀ z ∈ l, key z ≠ k := by
  simp [findBy, List.find?_eq_none]

theorem sum_map_replaceBy {α : Type} (key : α → Nat) (x x0 : α) (l : List α)
    (f : α → Int) (hnd : (l.map key).Nodup)
    (hx : findBy key (key x) l = some x0) :
    ((replaceBy key x l).map f).sum = (l.map f).sum - f x0 + f x := by
  induction l with
  | nil => simp [findBy] at hx
  | cons y l ih =>
    rw [List.map_cons, List.nodup_cons] at hnd
    rw [findBy_cons] at hx
    by_cases hy : key y = key x
    · rw [if_pos hy] at hx
      cases hx
      have : ∀ z ∈ l, key z ≠ key x := by
        intro z hz hzx
        exact hnd.1 ((hzx.trans hy.symm) ▸ List.mem_map_of_mem key hz)
      rw [replaceBy_cons, if_pos hy, replaceBy_of_forall_ne key x l this]
      simp [List.map_cons]
      ring
    · rw [if_neg hy] at hx
      rw [replaceBy_cons, if_neg hy]
      simp only [List.map_cons, List.sum_cons, ih hnd.2 hx]
      ring

theorem sum_map_replaceBy_absent {α : Type} (key : α → Nat) (x : α) (l : List α)
    (f : α → Int) (hx : findBy key (key x) l = none) :
    ((replaceBy key x l).map f).sum = (l.map f).sum := by
  rw [replaceBy_of_forall_ne key x l ((findBy_eq_none_iff key (key x) l).mp hx)]

theorem findBy_append {α : Type} (key : α → Nat) (k : Nat) (l₁ l₂ : List α) :
    findBy key k (l₁ ++ l₂) =
      match findBy key k l₁ with
      | some x => some x
      | none => findBy key k l₂ := by
  induction l₁ with
  | nil => simp [findBy]
  | cons y l ih =>
    by_cases h : key y = k
    · rw [List.cons_append, findBy_cons, findBy_cons, if_pos h, if_pos h]
    · rw [List.cons_append, findBy_cons, findBy_cons, if_neg h, if_neg h, ih]

/-! ### Projection lemmas for the state operations -/

@[simp] theorem updatePaket_penyewaans (db : DB) (p : Paket) :
    (updatePaket db p).penyewaans = db.penyewaans := rfl
@[simp] theorem updatePaket_details (db : DB) (p : Paket) :
    (updatePaket db p).details = db.details := rfl
@[simp] theorem updatePaket_transaksis (db : DB) (p : Paket) :
    (updatePaket db p).transaksis = db.transaksis := rfl
@[simp] theorem updatePaket_notifs (db : DB) (p : Paket) :
    (updatePaket db p).notifs = db.notifs := rfl
@[simp] theorem updatePaket_nextId (db : DB) (p : Paket) :
    (updatePaket db p).nextId = db.nextId := rfl
@[simp] theorem updatePaket_pakets (db : DB) (p : Paket) :
    (updatePaket db p).pakets = replaceBy Paket.id p db.pakets := rfl

@[simp] theorem updatePenyewaan_pakets (db : DB) (o : Penyewaan) :
    (updatePenyewaan db o).pakets = db.pakets := rfl
@[simp] theorem updatePenyewaan_details (db : DB) (o : Penyewaan) :
    (updatePenyewaan db o).details = db.details := rfl
@[simp] theorem updatePenyewaan_transaksis (db : DB) (o : Penyewaan) :
    (updatePenyewaan db o).transaksis = db.transaksis := rfl
@[simp] theorem updatePenyewaan_notifs (db : DB) (o : Penyewaan) :
    (updatePenyewaan db o).notifs = db.notifs := rfl
@[simp] theorem updatePenyewaan_nextId (db : DB) (o : Penyewaan) :
    (updatePenyewaan db o).nextId = db.nextId := rfl
@[simp] theorem updatePenyewaan_penyewaans (db : DB) (o : Penyewaan) :
    (updatePenyewaan db o).penyewaans = replaceBy Penyewaan.id o db.penyewaans := rfl

@[simp] theorem updateTransaksi_pakets (db : DB) (t : Transaksi) :
    (updateTransaksi db t).pakets = db.pakets := rfl
@[simp] theorem updateTransaksi_penyewaans (db : DB) (t : Transaksi) :
    (updateTransaksi db t).penyewaans = db.penyewaans := rfl
@[simp] theorem updateTransaksi_details (db : DB) (t : Transaksi) :
    (updateTransaksi db t).details = db.details := rfl
@[simp] theorem updateTransaksi_notifs (db : DB) (t : Transaksi) :
    (updateTransaksi db t).notifs = db.notifs := rfl
@[simp] theorem updateTransaksi_nextId (db : DB) (t : Transaksi) :
    (updateTransaksi db t).nextId = db.nextId := rfl
@[simp] theorem updateTransaksi_transaksis (db : DB) (t : Transaksi) :
    (updateTransaksi db t).transaksis = replaceBy Transaksi.id t db.transaksis := rfl

@[simp] theorem addNotif_pakets (db : DB) (n : Notifikasi) :
    (addNotif db n).pakets = db.pakets := rfl
@[simp] theorem addNotif_penyewaans (db : DB) (n : Notifikasi) :
    (addNotif db n).penyewaans = db.penyewaans := rfl
@[simp] theorem addNotif_details (db : DB) (n : Notifikasi) :
    (addNotif db n).details = db.details := rfl
@[simp] theorem addNotif_transaksis (db : DB) (n : Notifikasi) :
    (addNotif db n).transaksis = db.transaksis := rfl
@[simp] theorem addNotif_nextId (db : DB) (n : Notifikasi) :
    (addNotif db n).nextId = db.nextId := rfl
@[simp] theorem addNotif_notifs (db : DB) (n : Notifikasi) :
    (addNotif db n).notifs = db.notifs ++ [n] := rfl

/-! ### The payment signal handler never fires on a plain save

The handler compares the saved status against a fresh read of the already
written row, so the comparison never detects a change. -/

theorem create_payment_notification_pakets (db : DB) (t : Transaksi) :
    (create_payment_notification db t).pakets = db.pakets := by
  unfold create_payment_notification
  cases findTransaksi db t.id with
  | none => rfl
  | some old =>
    simp only []
    split_ifs <;> rfl

theorem create_payment_notification_penyewaans (db : DB) (t : Transaksi) :
    (create_payment_notification db t).penyewaans = db.penyewaans := by
  unfold create_payment_notification
  cases findTransaksi db t.id with
  | none => rfl
  | some old =>
    simp only []
    split_ifs <;> rfl

theorem create_payment_notification_details (db : DB) (t : Transaksi) :
    (create_payment_notification db t).details = db.details := by
  unfold create_payment_notification
  cases findTransaksi db t.id with
  | none => rfl
  | some old =>
    simp only []
    split_ifs <;> rfl

theorem create_payment_notification_transaksis (db : DB) (t : Transaksi) :
    (create_payment_notification db t).transaksis = db.transaksis := by
  unfold create_payment_notification
  cases findTransaksi db t.id with
  | none => rfl
  | some old =>
    simp only []
    split_ifs <;> rfl

theorem create_payment_notification_nextId (db : DB) (t : Transaksi) :
    (create_payment_notification db t).nextId = db.nextId := by
  unfold create_payment_notification
  cases findTransaksi db t.id with
  | none => rfl
  | some old =>
    simp only []
    split_ifs <;> rfl

/-- Key fact behind the dead notification branch: on the post-write state
the fresh read returns the row just saved. -/
theorem findBy_key {α : Type} (key : α → Nat) (k : Nat) (l : List α) (x : α)
    (h : findBy key k l = some x) : key x = k := by
  have := List.find?_some h
  simpa using this

theorem findBy_mem {α : Type} (key : α → Nat) (k : Nat) (l : List α) (x : α)
    (h : findBy key k l = some x) : x ∈ l :=
  List.mem_of_find?_eq_some h

/-- After `updateTransaksi db t`, looking up `t.id` yields `t` itself when
the row exists, hence the status comparison in the signal handler always
sees equal values: a plain save of a transaction never creates a
notification. -/
theorem saveTransaksi_notifs (db : DB) (t : Transaksi) :
    (saveTransaksi db t).notifs = db.notifs := by
  unfold saveTransaksi create_payment_notification
  cases h : findTransaksi (updateTransaksi db t) t.id with
  | none => rfl
  | some old =>
    have hold : old = t := by
      unfold findTransaksi at h
      simp only [updateTransaksi_transaksis] at h
      by_cases hpres : (findBy Transaksi.id t.id db.transaksis).isSome
      · rw [findBy_replaceBy_eq Transaksi.id t db.transaksis hpres] at h
        exact (Option.some_inj.mp h).symm
      · rw [Option.not_isSome_iff_eq_none] at hpres
        rw [replaceBy_of_forall_ne Transaksi.id t db.transaksis
          ((findBy_eq_none_iff Transaksi.id t.id db.transaksis).mp hpres)] at h
        rw [hpres] at h
        exact absurd h (by simp)
    subst hold
    simp

theorem saveTransaksi_pakets (db : DB) (t : Transaksi) :
    (saveTransaksi db t).pakets = db.pakets := by
  unfold saveTransaksi
  rw [create_payment_notification_pakets]
  rfl

theorem saveTransaksi_penyewaans (db : DB) (t : Transaksi) :
    (saveTransaksi db t).penyewaans = db.penyewaans := by
  unfold saveTransaksi
  rw [create_payment_notification_penyewaans]
  rfl

theorem saveTransaksi_details (db : DB) (t : Transaksi) :
    (saveTransaksi db t).details = db.details := by
  unfold saveTransaksi
  rw [create_payment_notification_details]
  rfl

theorem saveTransaksi_transaksis (db : DB) (t : Transaksi) :
    (saveTransaksi db t).transaksis = replaceBy Transaksi.id t db.transaksis := by
  unfold saveTransaksi
  rw [create_payment_notification_transaksis]
  rfl

theorem saveTransaksi_nextId (db : DB) (t : Transaksi) :
    (saveTransaksi db t).nextId = db.nextId := by
  unfold saveTransaksi
  rw [create_payment_notification_nextId]
  rfl

/-- The payment signal fired on a freshly inserted transaction row: the
fresh read returns the row itself, so nothing happens. -/
theorem create_payment_notification_append
    (A : List Paket) (B : List Penyewaan) (C : List DetailPenyewaan)
    (D : List Transaksi) (E : List Notifikasi) (F : Nat) (t : Transaksi)
    (hfresh : ∀ u ∈ D, u.id ≠ t.id) :
    create_payment_notification ⟨A, B, C, D ++ [t], E, F⟩ t = ⟨A, B, C, D ++ [t], E, F⟩ := by
  unfold create_payment_notification findTransaksi
  simp only []
  rw [findBy_append]
  rw [show findBy Transaksi.id t.id D = none from (findBy_eq_none_iff _ _ _).mpr hfresh]
  simp only []
  rw [findBy_cons, if_pos rfl]
  simp


/-! ### More list-level facts -/

theorem replaceBy_map_key {α : Type} (key : α → Nat) (x : α) (l : List α) :
    (replaceBy key x l).map key = l.map key := by
  induction l with
  | nil => rfl
  | cons y l ih =>
    rw [replaceBy_cons, List.map_cons, List.map_cons, ih]
    by_cases h : key y = key x
    · rw [if_pos h, h]
    · rw [if_neg h]

theorem findBy_isSome_iff {α : Type} (key : α → Nat) (k : Nat) (l : List α) :
    (findBy key k l).isSome ↔ k ∈ l.map key := by
  induction l with
  | nil => simp [findBy]
  | cons y l ih =>
    rw [findBy_cons]
    by_cases h : key y = k
    · simp [h]
    · simp only [if_neg h, List.map_cons, List.mem_cons, ih]
      constructor
      · intro hs
        exact Or.inr hs
      · intro hs
        rcases hs with hs | hs
        · exact absurd hs.symm h
        · exact hs

theorem mem_replaceBy {α : Type} (key : α → Nat) (x z : α) (l : List α)
    (hz : z ∈ replaceBy key x l) : z = x ∨ z ∈ l := by
  unfold replaceBy at hz
  rcases List.mem_map.mp hz with ⟨y, hy, hyz⟩
  by_cases h : key y = key x
  · rw [if_pos h] at hyz
    exact Or.inl hyz.symm
  · rw [if_neg h] at hyz
    exact Or.inr (hyz ▸ hy)

theorem findBy_of_mem_nodup {α : Type} (key : α → Nat) (x : α) (l : List α)
    (hnd : (l.map key).Nodup) (hx : x ∈ l) : findBy key (key x) l = some x := by
  induction l with
  | nil => exact absurd hx (List.not_mem_nil x)
  | cons y l ih =>
    rw [List.map_cons, List.nodup_cons] at hnd
    rw [findBy_cons]
    by_cases h : key y = key x
    · rw [if_pos h]
      rcases List.mem_cons.mp hx with hx | hx
      · rw [hx]
      · exact absurd (h ▸ List.mem_map_of_mem key hx) hnd.1
    · rw [if_neg h]
      rcases List.mem_cons.mp hx with hx | hx
      · exact absurd (congrArg key hx.symm) h
      · exact ih hnd.2 hx

theorem any_replaceBy_congr {α : Type} (key : α → Nat) (x : α) (l : List α)
    (p : α → Bool) (h : ∀ y ∈ l, key y = key x → p y = p x) :
    (replaceBy key x l).any p = l.any p := by
  induction l with
  | nil => rfl
  | cons y l ih =>
    rw [replaceBy_cons, List.any_cons, List.any_cons]
    rw [ih (fun z hz => h z (List.mem_cons_of_mem y hz))]
    by_cases hy : key y = key x
    · rw [if_pos hy, h y (List.mem_cons_self y l) hy]
    · rw [if_neg hy]

theorem filter_replaceBy_congr {α : Type} (key : α → Nat) (x x0 : α) (l : List α)
    (p : α → Bool) (hnd : (l.map key).Nodup)
    (hfind : findBy key (key x) l = some x0) (hp : p x = p x0) :
    (replaceBy key x l).filter p = replaceBy key x (l.filter p) := by
  induction l with
  | nil => rfl
  | cons y l ih =>
    rw [List.map_cons, List.nodup_cons] at hnd
    rw [findBy_cons] at hfind
    by_cases hy : key y = key x
    · rw [if_pos hy] at hfind
      cases hfind
      have hnomatch : ∀ z ∈ l, key z ≠ key x := by
        intro z hz hzx
        exact hnd.1 ((hzx.trans hy.symm) ▸ List.mem_map_of_mem key hz)
      have hfilter : ∀ z ∈ l.filter p, key z ≠ key x := by
        intro z hz
        exact hnomatch z (List.mem_of_mem_filter hz)
      rw [replaceBy_cons, if_pos hy, replaceBy_of_forall_ne key x l hnomatch]
      rw [List.filter_cons, List.filter_cons]
      by_cases hpy : p x0 = true
      · rw [if_pos hpy, if_pos (hp.trans hpy), replaceBy_cons, if_pos hy,
          replaceBy_of_forall_ne key x (l.filter p) hfilter]
      · rw [if_neg hpy, if_neg (fun hc => hpy (hp ▸ hc)),
          replaceBy_of_forall_ne key x (l.filter p) hfilter]
    · rw [if_neg hy] at hfind
      rw [replaceBy_cons, if_neg hy, List.filter_cons, List.filter_cons]
      by_cases hpy : p y = true
      · rw [if_pos hpy, if_pos hpy, replaceBy_cons, if_neg hy, ih hnd.2 hfind]
      · rw [if_neg hpy, if_neg hpy, ih hnd.2 hfind]

theorem filter_replaceBy_drop {α : Type} (key : α → Nat) (x : α) (l : List α)
    (p : α → Bool) (h : ∀ y ∈ l, key y = key x → (p y = false ∧ p x = false)) :
    (replaceBy key x l).filter p = l.filter p := by
  induction l with
  | nil => rfl
  | cons y l ih =>
    rw [replaceBy_cons, List.filter_cons, List.filter_cons]
    rw [← ih (fun z hz => h z (List.mem_cons_of_mem y hz))]
    by_cases hy : key y = key x
    · obtain ⟨h1, h2⟩ := h y (List.mem_cons_self y l) hy
      rw [if_pos hy, h1, h2]
      simp
    · rw [if_neg hy]

/-! ### Effect of one bulk-verification step -/

/-- The selection condition of the bulk action for a single order: the order
exists, its status is `pending`, and some transaction of the order has
status `paid`. -/
def qualifies (db : DB) (oid : Nat) : Bool :=
  match findPenyewaan db oid with
  | some o =>
      decide (o.status = OrderStatus.pending) &&
      db.transaksis.any (fun t => t.penyewaan == oid && t.status == TransStatus.paid)
  | none => false

theorem eq_of_mem_key_nodup {α : Type} (key : α → Nat) (x y : α) (l : List α)
    (hnd : (l.map key).Nodup) (hx : x ∈ l) (hy : y ∈ l) (hk : key x = key y) :
    x = y := by
  have h1 : findBy key (key x) l = some x := findBy_of_mem_nodup key x l hnd hx
  have h2 : findBy key (key y) l = some y := findBy_of_mem_nodup key y l hnd hy
  rw [hk, h2] at h1
  exact (Option.some_inj.mp h1).symm

theorem find?_isSome_iff_any {α : Type} (l : List α) (p : α → Bool) :
    (l.find? p).isSome = l.any p := by
  induction l with
  | nil => rfl
  | cons y l ih =>
    rw [List.find?_cons, List.any_cons]
    by_cases h : p y
    · rw [h]
      simp
    · rw [Bool.not_eq_true] at h
      rw [h]
      simpa using ih

theorem verifyOne_spec (db : DB) (oid : Nat)
    (hndt : (db.transaksis.map Transaksi.id).Nodup) :
    (verifyOne db oid).1.pakets = db.pakets ∧
    (verifyOne db oid).1.details = db.details ∧
    (verifyOne db oid).1.notifs = db.notifs ∧
    (verifyOne db oid).1.nextId = db.nextId ∧
    (verifyOne db oid).2 = qualifies db oid ∧
    (qualifies db oid = false → (verifyOne db oid).1 = db) ∧
    (qualifies db oid = true →
      (∀ oid2, oid2 ≠ oid →
        findPenyewaan (verifyOne db oid).1 oid2 = findPenyewaan db oid2) ∧
      (∃ o, findPenyewaan db oid = some o ∧ o.status = OrderStatus.pending ∧
        findPenyewaan (verifyOne db oid).1 oid =
          some { o with status := OrderStatus.confirmed }) ∧
      (∀ oid2, oid2 ≠ oid → transOf (verifyOne db oid).1 oid2 = transOf db oid2) ∧
      (∃ t, db.transaksis.find?
              (fun u => u.penyewaan == oid && u.status == TransStatus.paid) = some t ∧
        transOf (verifyOne db oid).1 oid =
          replaceBy Transaksi.id { t with status := TransStatus.verified }
            (transOf db oid))) := by
  unfold verifyOne qualifies
  cases ho : findPenyewaan db oid with
  | none => simp
  | some o =>
    simp only []
    have hoid : o.id = oid := findBy_key Penyewaan.id oid db.penyewaans o ho
    subst hoid
    by_cases hs : o.status = OrderStatus.pending
    · rw [if_pos hs]
      cases ht : db.transaksis.find?
          (fun u => u.penyewaan == o.id && u.status == TransStatus.paid) with
      | none =>
        have hany : db.transaksis.any
            (fun u => u.penyewaan == o.id && u.status == TransStatus.paid) = false := by
          rw [← find?_isSome_iff_any, ht]
          rfl
        simp [hs, hany]
      | some t =>
        have htmem : t ∈ db.transaksis := List.mem_of_find?_eq_some ht
        have htpred := List.find?_some ht
        rw [Bool.and_eq_true, beq_iff_eq, beq_iff_eq] at htpred
        have hany : db.transaksis.any
            (fun u => u.penyewaan == o.id && u.status == TransStatus.paid) = true := by
          rw [← find?_isSome_iff_any, ht]
          rfl
        have hq : (decide (o.status = OrderStatus.pending) &&
            db.transaksis.any
              (fun u => u.penyewaan == o.id && u.status == TransStatus.paid)) = true := by
          rw [hany, decide_eq_true hs]
          rfl
        refine ⟨?_, ?_, ?_, ?_, ?_, ?_, ?_⟩
        · simp [saveTransaksi_pakets]
        · simp [saveTransaksi_details]
        · simp [saveTransaksi_notifs]
        · simp [saveTransaksi_nextId]
        · simp [hq]
        · intro hfalse
          rw [hq] at hfalse
          exact absurd hfalse (by simp)
        · intro _
          refine ⟨?_, ?_, ?_, ?_⟩
          · intro oid2 hne
            unfold findPenyewaan
            simp only [updatePenyewaan_penyewaans, saveTransaksi_penyewaans]
            exact findBy_replaceBy_ne Penyewaan.id
              { o with status := OrderStatus.confirmed } oid2 (Ne.symm hne) db.penyewaans
          · refine ⟨o, rfl, hs, ?_⟩
            unfold findPenyewaan
            simp only [updatePenyewaan_penyewaans, saveTransaksi_penyewaans]
            have hpres : (findBy Penyewaan.id
                (({ o with status := OrderStatus.confirmed } : Penyewaan).id)
                db.penyewaans).isSome := by
              show (findPenyewaan db o.id).isSome
              rw [ho]
              rfl
            exact findBy_replaceBy_eq Penyewaan.id
              { o with status := OrderStatus.confirmed } db.penyewaans hpres
          · intro oid2 hne
            unfold transOf
            simp only [updatePenyewaan_transaksis, saveTransaksi_transaksis]
            apply filter_replaceBy_drop
            intro y hy hk
            have hyt : y = t := eq_of_mem_key_nodup Transaksi.id y t db.transaksis
              hndt hy htmem hk
            subst hyt
            refine ⟨?_, ?_⟩
            · simp [htpred.1, Ne.symm hne]
            · simp [htpred.1, Ne.symm hne]
          · refine ⟨t, rfl, ?_⟩
            unfold transOf
            simp only [updatePenyewaan_transaksis, saveTransaksi_transaksis]
            apply filter_replaceBy_congr Transaksi.id _ t db.transaksis _ hndt
            · exact findBy_of_mem_nodup Transaksi.id t db.transaksis hndt htmem
            · simp [htpred.1]
    · have hfalse : (decide (o.status = OrderStatus.pending) &&
          db.transaksis.any
            (fun t => t.penyewaan == o.id && t.status == TransStatus.paid)) = false := by
        simp [hs]
      rw [if_neg hs]
      simp [hfalse]

theorem find?_replaceBy_drop {α : Type} (key : α → Nat) (x : α) (l : List α)
    (p : α → Bool) (h : ∀ y ∈ l, key y = key x → (p y = false ∧ p x = false)) :
    (replaceBy key x l).find? p = l.find? p := by
  induction l with
  | nil => rfl
  | cons y l ih =>
    rw [replaceBy_cons]
    by_cases hy : key y = key x
    · obtain ⟨h1, h2⟩ := h y (List.mem_cons_self y l) hy
      rw [if_pos hy, List.find?_cons, List.find?_cons, h1, h2]
      exact ih (fun z hz => h z (List.mem_cons_of_mem y hz))
    · rw [if_neg hy, List.find?_cons, List.find?_cons]
      cases hpy : p y
      · exact ih (fun z hz => h z (List.mem_cons_of_mem y hz))
      · rfl

/-- Complete branch analysis of one bulk-verification step. -/
theorem verifyOne_cases (db : DB) (oid : Nat) :
    (verifyOne db oid = (db, false) ∧ qualifies db oid = false) ∨
    (∃ o t, findPenyewaan db oid = some o ∧ o.status = OrderStatus.pending ∧
      db.transaksis.find?
        (fun u => u.penyewaan == oid && u.status == TransStatus.paid) = some t ∧
      qualifies db oid = true ∧
      verifyOne db oid =
        (updatePenyewaan (saveTransaksi db { t with status := TransStatus.verified })
          { o with status := OrderStatus.confirmed }, true)) := by
  unfold verifyOne qualifies
  cases ho : findPenyewaan db oid with
  | none => exact Or.inl ⟨rfl, rfl⟩
  | some o =>
    simp only []
    by_cases hs : o.status = OrderStatus.pending
    · rw [if_pos hs]
      cases ht : db.transaksis.find?
          (fun u => u.penyewaan == oid && u.status == TransStatus.paid) with
      | none =>
        refine Or.inl ⟨rfl, ?_⟩
        have hany : db.transaksis.any
            (fun u => u.penyewaan == oid && u.status == TransStatus.paid) = false := by
          rw [← find?_isSome_iff_any, ht]
          rfl
        rw [hany]
        simp
      | some t =>
        refine Or.inr ⟨o, t, rfl, hs, rfl, ?_, rfl⟩
        have hany : db.transaksis.any
            (fun u => u.penyewaan == oid && u.status == TransStatus.paid) = true := by
          rw [← find?_isSome_iff_any, ht]
          rfl
        rw [hany, decide_eq_true hs]
        rfl
    · rw [if_neg hs]
      refine Or.inl ⟨rfl, ?_⟩
      simp [hs]

/-! ### Well-formedness preservation -/

theorem WF_updatePaket (db : DB) (x : Paket) (hWF : WF db) :
    WF (updatePaket db x) := by
  obtain ⟨h1, h2, h3, h4, h5, h6, h7⟩ := hWF
  refine ⟨?_, h2, h3, h4, h5, h6, ?_⟩
  · rw [updatePaket_pakets, replaceBy_map_key]
    exact h1
  · intro o ho pid hpid
    rw [updatePaket_pakets, replaceBy_map_key]
    exact h7 o ho pid hpid

theorem WF_replace_status (db : DB) (o : Penyewaan) (st : OrderStatus)
    (hWF : WF db) (ho : o ∈ db.penyewaans) :
    WF (updatePenyewaan db { o with status := st }) := by
  obtain ⟨h1, h2, h3, h4, h5, h6, h7⟩ := hWF
  refine ⟨h1, ?_, h3, ?_, h5, h6, ?_⟩
  · rw [updatePenyewaan_penyewaans, replaceBy_map_key]
    exact h2
  · intro z hz
    rcases mem_replaceBy Penyewaan.id _ z db.penyewaans hz with hzx | hzm
    · subst hzx
      exact h4 o ho
    · exact h4 z hzm
  · intro z hz pid hpid
    rcases mem_replaceBy Penyewaan.id _ z db.penyewaans hz with hzx | hzm
    · subst hzx
      exact h7 o ho pid hpid
    · exact h7 z hzm pid hpid

theorem WF_replace_trans_status (db : DB) (t : Transaksi) (st : TransStatus)
    (hWF : WF db) (ht : t ∈ db.transaksis) :
    WF (updateTransaksi db { t with status := st }) := by
  obtain ⟨h1, h2, h3, h4, h5, h6, h7⟩ := hWF
  refine ⟨h1, h2, ?_, h4, h5, ?_, h7⟩
  · rw [updateTransaksi_transaksis, replaceBy_map_key]
    exact h3
  · intro z hz
    rcases mem_replaceBy Transaksi.id _ z db.transaksis hz with hzx | hzm
    · subst hzx
      exact h6 t ht
    · exact h6 z hzm

theorem WF_create_payment_notification (db : DB) (t : Transaksi) (hWF : WF db) :
    WF (create_payment_notification db t) := by
  unfold WF
  rw [create_payment_notification_pakets, create_payment_notification_penyewaans,
    create_payment_notification_details, create_payment_notification_transaksis,
    create_payment_notification_nextId]
  exact hWF

theorem WF_saveTransaksi (db : DB) (t : Transaksi) (st : TransStatus)
    (hWF : WF db) (ht : t ∈ db.transaksis) :
    WF (saveTransaksi db { t with status := st }) := by
  unfold saveTransaksi
  exact WF_create_payment_notification _ _
    (WF_replace_trans_status db t st hWF ht)

theorem verifyOne_WF (db : DB) (oid : Nat) (hWF : WF db) :
    WF (verifyOne db oid).1 := by
  rcases verifyOne_cases db oid with ⟨heq, _⟩ | ⟨o, t, ho, _, ht, _, heq⟩
  · rw [heq]
    exact hWF
  · rw [heq]
    have homem : o ∈ db.penyewaans := findBy_mem Penyewaan.id oid db.penyewaans o ho
    have htmem : t ∈ db.transaksis := List.mem_of_find?_eq_some ht
    have hWF1 := WF_saveTransaksi db t TransStatus.verified hWF htmem
    have homem1 : o ∈ (saveTransaksi db { t with status := TransStatus.verified }).penyewaans := by
      rw [saveTransaksi_penyewaans]
      exact homem
    exact WF_replace_status _ o OrderStatus.confirmed hWF1 homem1

/-- One bulk-verification step leaves every other order untouched: its row,
its transactions, and its selection condition. -/
theorem verifyOne_stable_ne (db : DB) (oid oid2 : Nat)
    (hndt : (db.transaksis.map Transaksi.id).Nodup) (hne : oid2 ≠ oid) :
    findPenyewaan (verifyOne db oid).1 oid2 = findPenyewaan db oid2 ∧
    transOf (verifyOne db oid).1 oid2 = transOf db oid2 ∧
    (verifyOne db oid).1.transaksis.find?
        (fun u => u.penyewaan == oid2 && u.status == TransStatus.paid) =
      db.transaksis.find?
        (fun u => u.penyewaan == oid2 && u.status == TransStatus.paid) ∧
    qualifies (verifyOne db oid).1 oid2 = qualifies db oid2 := by
  rcases verifyOne_cases db oid with ⟨heq, _⟩ | ⟨o, t, ho, hs, ht, hq, heq⟩
  · rw [heq]
    exact ⟨rfl, rfl, rfl, rfl⟩
  · have htmem : t ∈ db.transaksis := List.mem_of_find?_eq_some ht
    have htpred := List.find?_some ht
    rw [Bool.and_eq_true, beq_iff_eq, beq_iff_eq] at htpred
    have hoid : o.id = oid := findBy_key Penyewaan.id oid db.penyewaans o ho
    have hfind : findPenyewaan (verifyOne db oid).1 oid2 = findPenyewaan db oid2 := by
      rw [heq]
      unfold findPenyewaan
      simp only [updatePenyewaan_penyewaans, saveTransaksi_penyewaans]
      exact findBy_replaceBy_ne Penyewaan.id
        { o with status := OrderStatus.confirmed } oid2
        (by simpa [hoid] using Ne.symm hne) db.penyewaans
    have htrans : (verifyOne db oid).1.transaksis =
        replaceBy Transaksi.id { t with status := TransStatus.verified } db.transaksis := by
      rw [heq]
      simp only [updatePenyewaan_transaksis, saveTransaksi_transaksis]
    refine ⟨hfind, ?_, ?_, ?_⟩
    · unfold transOf
      rw [htrans]
      apply filter_replaceBy_drop
      intro y hy hk
      have hyt : y = t := eq_of_mem_key_nodup Transaksi.id y t db.transaksis hndt
        hy htmem hk
      subst hyt
      constructor
      · simp [htpred.1, Ne.symm hne]
      · simp [htpred.1, Ne.symm hne]
    · rw [htrans]
      apply find?_replaceBy_drop
      intro y hy hk
      have hyt : y = t := eq_of_mem_key_nodup Transaksi.id y t db.transaksis hndt
        hy htmem hk
      subst hyt
      constructor
      · simp [htpred.1, Ne.symm hne]
      · simp [htpred.1, Ne.symm hne]
    · unfold qualifies
      rw [hfind]
      cases findPenyewaan db oid2 with
      | none => rfl
      | some o2 =>
        simp only []
        rw [htrans]
        rw [any_replaceBy_congr Transaksi.id _ db.transaksis _ ?_]
        intro y hy hk
        have hyt : y = t := eq_of_mem_key_nodup Transaksi.id y t db.transaksis hndt
          hy htmem hk
        subst hyt
        have hbeq : (oid == oid2) = false := by
          simpa using Ne.symm hne
        simp [htpred.1, hbeq]

/-- Full characterisation of the bulk-verification fold, with explicit
starting counters. -/
theorem konfirmasi_fold_aux (batch : List Nat) (db : DB) (a b : Nat)
    (hWF : WF db) (hnd : batch.Nodup) :
    (batch.foldl verifyStep (db, a, b)).1.pakets = db.pakets ∧
    (batch.foldl verifyStep (db, a, b)).1.details = db.details ∧
    (batch.foldl verifyStep (db, a, b)).1.notifs = db.notifs ∧
    (batch.foldl verifyStep (db, a, b)).1.nextId = db.nextId ∧
    WF (batch.foldl verifyStep (db, a, b)).1 ∧
    (batch.foldl verifyStep (db, a, b)).2.1 =
      a + (batch.filter (fun oid => qualifies db oid)).length ∧
    (batch.foldl verifyStep (db, a, b)).2.2 =
      b + (batch.filter (fun oid => !qualifies db oid)).length ∧
    (∀ oid2, oid2 ∉ batch →
      findPenyewaan (batch.foldl verifyStep (db, a, b)).1 oid2 = findPenyewaan db oid2 ∧
      transOf (batch.foldl verifyStep (db, a, b)).1 oid2 = transOf db oid2) ∧
    (∀ oid2 ∈ batch, qualifies db oid2 = false →
      findPenyewaan (batch.foldl verifyStep (db, a, b)).1 oid2 = findPenyewaan db oid2 ∧
      transOf (batch.foldl verifyStep (db, a, b)).1 oid2 = transOf db oid2) ∧
    (∀ oid2 ∈ batch, qualifies db oid2 = true →
      (∃ o, findPenyewaan db oid2 = some o ∧ o.status = OrderStatus.pending ∧
        findPenyewaan (batch.foldl verifyStep (db, a, b)).1 oid2 =
          some { o with status := OrderStatus.confirmed }) ∧
      (∃ t, db.transaksis.find?
              (fun u => u.penyewaan == oid2 && u.status == TransStatus.paid) = some t ∧
        transOf (batch.foldl verifyStep (db, a, b)).1 oid2 =
          replaceBy Transaksi.id { t with status := TransStatus.verified }
            (transOf db oid2))) := by
  induction batch generalizing db a b with
  | nil =>
    refine ⟨rfl, rfl, rfl, rfl, hWF, by simp, by simp, fun _ _ => ⟨rfl, rfl⟩,
      ?_, ?_⟩
    · intro oid2 h
      exact absurd h (List.not_mem_nil oid2)
    · intro oid2 h
      exact absurd h (List.not_mem_nil oid2)
  | cons oid batch ih =>
    rw [List.nodup_cons] at hnd
    obtain ⟨hmem, hnd⟩ := hnd
    have hndt : (db.transaksis.map Transaksi.id).Nodup := hWF.2.2.1
    obtain ⟨sp1, sp2, sp3, sp4, sp5, sp6, sp7⟩ := verifyOne_spec db oid hndt
    have hWF1 : WF (verifyOne db oid).1 := verifyOne_WF db oid hWF
    rw [List.foldl_cons]
    cases hq : qualifies db oid with
    | false =>
      have hstep : verifyStep (db, a, b) oid = (db, a, b + 1) := by
        simp [verifyStep, sp5, hq, sp6 hq]
      rw [hstep]
      obtain ⟨ih1, ih2, ih3, ih4, ih5, ih6, ih7, ih8, ih9, ih10⟩ :=
        ih db a (b + 1) hWF hnd
      refine ⟨ih1, ih2, ih3, ih4, ih5, ?_, ?_, ?_, ?_, ?_⟩
      · rw [ih6, List.filter_cons, hq]
        simp
      · rw [ih7, List.filter_cons, hq]
        simp only [Bool.not_false, if_pos, List.length_cons]
        omega
      · intro oid2 h2
        rw [List.mem_cons, not_or] at h2
        exact ih8 oid2 h2.2
      · intro oid2 h2 hq2
        rcases List.mem_cons.mp h2 with h2 | h2
        · subst h2
          exact ih8 oid2 hmem
        · exact ih9 oid2 h2 hq2
      · intro oid2 h2 hq2
        rcases List.mem_cons.mp h2 with h2 | h2
        · subst h2
          rw [hq] at hq2
          exact absurd hq2 (by simp)
        · exact ih10 oid2 h2 hq2
    | true =>
      have hstep : verifyStep (db, a, b) oid = ((verifyOne db oid).1, a + 1, b) := by
        simp [verifyStep, sp5, hq]
      rw [hstep]
      have hstab : ∀ oid2, oid2 ≠ oid →
          findPenyewaan (verifyOne db oid).1 oid2 = findPenyewaan db oid2 ∧
          transOf (verifyOne db oid).1 oid2 = transOf db oid2 ∧
          (verifyOne db oid).1.transaksis.find?
              (fun u => u.penyewaan == oid2 && u.status == TransStatus.paid) =
            db.transaksis.find?
              (fun u => u.penyewaan == oid2 && u.status == TransStatus.paid) ∧
          qualifies (verifyOne db oid).1 oid2 = qualifies db oid2 :=
        fun oid2 hne => verifyOne_stable_ne db oid oid2 hndt hne
      obtain ⟨ih1, ih2, ih3, ih4, ih5, ih6, ih7, ih8, ih9, ih10⟩ :=
        ih (verifyOne db oid).1 (a + 1) b hWF1 hnd
      have hfilter : batch.filter (fun oid2 => qualifies (verifyOne db oid).1 oid2) =
          batch.filter (fun oid2 => qualifies db oid2) := by
        apply List.filter_congr
        intro oid2 h2
        exact (hstab oid2 (fun hc => hmem (hc ▸ h2))).2.2.2
      have hfilterneg : batch.filter (fun oid2 => !qualifies (verifyOne db oid).1 oid2) =
          batch.filter (fun oid2 => !qualifies db oid2) := by
        apply List.filter_congr
        intro oid2 h2
        rw [(hstab oid2 (fun hc => hmem (hc ▸ h2))).2.2.2]
      refine ⟨?_, ?_, ?_, ?_, ih5, ?_, ?_, ?_, ?_, ?_⟩
      · rw [ih1, sp1]
      · rw [ih2, sp2]
      · rw [ih3, sp3]
      · rw [ih4, sp4]
      · rw [ih6, hfilter, List.filter_cons, hq]
        simp only [if_pos, List.length_cons]
        omega
      · rw [ih7, hfilterneg, List.filter_cons, hq]
        simp
      · intro oid2 h2
        rw [List.mem_cons, not_or] at h2
        obtain ⟨hne, h2⟩ := h2
        obtain ⟨f1, f2⟩ := ih8 oid2 h2
        obtain ⟨s1, s2, _, _⟩ := hstab oid2 hne
        exact ⟨f1.trans s1, f2.trans s2⟩
      · intro oid2 h2 hq2
        rcases List.mem_cons.mp h2 with h2 | h2
        · subst h2
          rw [hq] at hq2
          exact absurd hq2 (by simp)
        · have hne : oid2 ≠ oid := fun hc => hmem (hc ▸ h2)
          obtain ⟨s1, s2, _, s4⟩ := hstab oid2 hne
          obtain ⟨f1, f2⟩ := ih9 oid2 h2 (s4.trans hq2)
          exact ⟨f1.trans s1, f2.trans s2⟩
      · intro oid2 h2 hq2
        rcases List.mem_cons.mp h2 with h2 | h2
        · subst h2
          obtain ⟨g1, g2, g3, g4⟩ := sp7 hq
          obtain ⟨f1, f2⟩ := ih8 oid2 hmem
          refine ⟨?_, ?_⟩
          · obtain ⟨o, ho1, ho2, ho3⟩ := g2
            exact ⟨o, ho1, ho2, f1.trans ho3⟩
          · obtain ⟨t, ht1, ht2⟩ := g4
            exact ⟨t, ht1, f2.trans ht2⟩
        · have hne : oid2 ≠ oid := fun hc => hmem (hc ▸ h2)
          obtain ⟨s1, s2, s3, s4⟩ := hstab oid2 hne
          obtain ⟨g1, g2⟩ := ih10 oid2 h2 (s4.trans hq2)
          refine ⟨?_, ?_⟩
          · obtain ⟨o, ho1, ho2, ho3⟩ := g1
            exact ⟨o, s1 ▸ ho1, ho2, ho3⟩
          · obtain ⟨t, ht1, ht2⟩ := g2
            exact ⟨t, s3 ▸ ht1, s2 ▸ ht2⟩

theorem isActive_false_of_inactive (s : OrderStatus) (h : isInactive s = true) :
    isActive s = false := by
  cases s <;> simp_all [isActive, isInactive]

theorem isInactive_false_of_active (s : OrderStatus) (h : isActive s = true) :
    isInactive s = false := by
  cases s <;> simp_all [isActive, isInactive]

theorem updatePenyewaan_found (db : DB) (oid : Nat) (o : Penyewaan)
    (hnd : (db.penyewaans.map Penyewaan.id).Nodup)
    (ho : findPenyewaan db oid = some o) : updatePenyewaan db o = db := by
  have hoid : o.id = oid := findBy_key Penyewaan.id oid db.penyewaans o ho
  unfold updatePenyewaan
  rw [replaceBy_self Penyewaan.id o db.penyewaans (by rw [hoid]; exact ho) hnd]

/-! ### Effect of one sweep step -/

/-- The stock quantity the sweep step restores to package `pid` for one
order: its first detail-line quantity, when the order has a detail line and
references the (existing) package. -/
def sweepGain (db : DB) (o : Penyewaan) (pid : Nat) : Int :=
  if (firstDetail db o.id).isSome ∧ o.paket = some pid ∧
      pid ∈ db.pakets.map Paket.id then
    orderQty db.details o.id
  else 0

theorem sweepOne_details (db : DB) (o : Penyewaan) :
    (sweepOne db o).details = db.details := by
  unfold sweepOne
  cases firstDetail db o.id <;> cases o.paket.bind (findPaket db) <;> rfl

theorem sweepOne_transaksis (db : DB) (o : Penyewaan) :
    (sweepOne db o).transaksis = db.transaksis := by
  unfold sweepOne
  cases firstDetail db o.id <;> cases o.paket.bind (findPaket db) <;> rfl

theorem sweepOne_nextId (db : DB) (o : Penyewaan) :
    (sweepOne db o).nextId = db.nextId := by
  unfold sweepOne
  cases firstDetail db o.id <;> cases o.paket.bind (findPaket db) <;> rfl

theorem sweepOne_notifs (db : DB) (o : Penyewaan) :
    (sweepOne db o).notifs = db.notifs ++ [warnNotif o] := by
  unfold sweepOne
  cases firstDetail db o.id <;> cases o.paket.bind (findPaket db) <;> rfl

theorem sweepOne_pakets_ids (db : DB) (o : Penyewaan) :
    (sweepOne db o).pakets.map Paket.id = db.pakets.map Paket.id := by
  unfold sweepOne
  cases firstDetail db o.id <;> cases o.paket.bind (findPaket db) <;>
    simp [replaceBy_map_key]

theorem sweepOne_penyewaans_ids (db : DB) (o : Penyewaan) :
    (sweepOne db o).penyewaans.map Penyewaan.id = db.penyewaans.map Penyewaan.id := by
  unfold sweepOne
  cases firstDetail db o.id <;> cases o.paket.bind (findPaket db) <;>
    simp [replaceBy_map_key]

theorem sweepGain_congr (db db2 : DB) (o : Penyewaan) (pid : Nat)
    (h1 : db2.details = db.details)
    (h2 : db2.pakets.map Paket.id = db.pakets.map Paket.id) :
    sweepGain db2 o pid = sweepGain db o pid := by
  unfold sweepGain firstDetail orderQty
  rw [h1, h2]

theorem sweepOne_stok (db : DB) (o : Penyewaan) (pid : Nat) :
    stokOf (sweepOne db o) pid = stokOf db pid + sweepGain db o pid := by
  unfold sweepOne sweepGain
  cases hd : firstDetail db o.id with
  | none =>
    cases o.paket.bind (findPaket db) <;>
      simp [stokOf, findPaket, hd]
  | some d =>
    cases hb : o.paket.bind (findPaket db) with
    | none =>
      have hcond : ¬((some d : Option DetailPenyewaan).isSome ∧ o.paket = some pid ∧
          pid ∈ db.pakets.map Paket.id) := by
        rintro ⟨_, hpk, hmem⟩
        rw [hpk] at hb
        have hb3 : findBy Paket.id pid db.pakets = none := hb
        have hsome : (findBy Paket.id pid db.pakets).isSome :=
          (findBy_isSome_iff Paket.id pid db.pakets).mpr hmem
        rw [hb3] at hsome
        simp at hsome
      simp only []
      rw [if_neg hcond]
      simp [stokOf, findPaket]
    | some p =>
      obtain ⟨pid0, hpk⟩ : ∃ pid0, o.paket = some pid0 := by
        cases hpo : o.paket with
        | none => rw [hpo] at hb; exact absurd hb (by simp)
        | some x => exact ⟨x, rfl⟩
      rw [hpk] at hb
      have hfp2 : findBy Paket.id pid0 db.pakets = some p := hb
      have hp0 : p.id = pid0 := findBy_key Paket.id pid0 db.pakets p hfp2
      have hpmem : pid0 ∈ db.pakets.map Paket.id :=
        (findBy_isSome_iff Paket.id pid0 db.pakets).mp (by rw [hfp2]; rfl)
      simp only [stokOf, findPaket, updatePenyewaan_pakets, addNotif_pakets,
        updatePaket_pakets]
      by_cases hpid : pid = pid0
      · subst hpid
        have h2 : findBy Paket.id pid
            (replaceBy Paket.id { p with stok := p.stok + (d.jumlah : Int) } db.pakets) =
            some { p with stok := p.stok + (d.jumlah : Int) } := by
          rw [← hp0]
          exact findBy_replaceBy_eq Paket.id
            { p with stok := p.stok + (d.jumlah : Int) } db.pakets
            (by rw [hp0, hfp2]; rfl)
        rw [h2, hfp2, if_pos ⟨rfl, hpk, hpmem⟩]
        unfold orderQty
        rw [show db.details.find? (fun x => x.penyewaan == o.id) = some d from hd]
      · rw [findBy_replaceBy_ne Paket.id { p with stok := p.stok + (d.jumlah : Int) }
          pid (by show p.id ≠ pid; rw [hp0]; exact fun hc => hpid hc.symm) db.pakets]
        rw [if_neg (by
          rintro ⟨_, h2, _⟩
          rw [hpk] at h2
          exact hpid (Option.some_inj.mp h2).symm)]
        simp

theorem sweepOne_find_ne (db : DB) (o : Penyewaan) (oid : Nat) (hne : o.id ≠ oid) :
    findPenyewaan (sweepOne db o) oid = findPenyewaan db oid := by
  unfold sweepOne findPenyewaan
  cases firstDetail db o.id <;> cases o.paket.bind (findPaket db) <;>
    (simp only [updatePenyewaan_penyewaans, addNotif_penyewaans, updatePaket_penyewaans]
     exact findBy_replaceBy_ne Penyewaan.id { o with status := OrderStatus.cancelled }
       oid hne db.penyewaans)

theorem sweepOne_find_eq (db : DB) (o : Penyewaan)
    (hpres : (findPenyewaan db o.id).isSome) :
    findPenyewaan (sweepOne db o) o.id =
      some { o with status := OrderStatus.cancelled } := by
  unfold sweepOne findPenyewaan
  cases firstDetail db o.id <;> cases o.paket.bind (findPaket db) <;>
    (simp only [updatePenyewaan_penyewaans, addNotif_penyewaans, updatePaket_penyewaans]
     exact findBy_replaceBy_eq Penyewaan.id { o with status := OrderStatus.cancelled }
       db.penyewaans hpres)

theorem sweepOne_WF (db : DB) (o : Penyewaan) (hWF : WF db)
    (hid : o.id < db.nextId)
    (hfk : ∀ pid ∈ o.paket.toList, pid ∈ db.pakets.map Paket.id) :
    WF (sweepOne db o) := by
  obtain ⟨h1, h2, h3, h4, h5, h6, h7⟩ := hWF
  refine ⟨?_, ?_, ?_, ?_, ?_, ?_, ?_⟩
  · rw [sweepOne_pakets_ids]
    exact h1
  · rw [sweepOne_penyewaans_ids]
    exact h2
  · rw [sweepOne_transaksis]
    exact h3
  · intro z hz
    rw [sweepOne_nextId]
    unfold sweepOne at hz
    rcases hz2 : firstDetail db o.id with _ | d <;> rw [hz2] at hz <;>
      rcases hz3 : o.paket.bind (findPaket db) with _ | p <;> rw [hz3] at hz <;>
      simp only [addNotif_penyewaans, updatePenyewaan_penyewaans,
        updatePaket_penyewaans] at hz <;>
      rcases mem_replaceBy Penyewaan.id _ z db.penyewaans hz with hzx | hzm <;>
      first
        | (subst hzx; exact hid)
        | exact h4 z hzm
  · intro z hz
    rw [sweepOne_nextId, sweepOne_details] at *
    exact h5 z hz
  · intro z hz
    rw [sweepOne_nextId]
    rw [sweepOne_transaksis] at hz
    exact h6 z hz
  · intro z hz pid hpid
    rw [sweepOne_pakets_ids]
    unfold sweepOne at hz
    rcases hz2 : firstDetail db o.id with _ | d <;> rw [hz2] at hz <;>
      rcases hz3 : o.paket.bind (findPaket db) with _ | p <;> rw [hz3] at hz <;>
      simp only [addNotif_penyewaans, updatePenyewaan_penyewaans,
        updatePaket_penyewaans] at hz <;>
      rcases mem_replaceBy Penyewaan.id _ z db.penyewaans hz with hzx | hzm <;>
      first
        | (subst hzx; exact hfk pid hpid)
        | exact h7 z hzm pid hpid

theorem sweep_foldl (L : List Penyewaan) (db : DB) :
    (L.foldl sweepOne db).details = db.details ∧
    (L.foldl sweepOne db).transaksis = db.transaksis ∧
    (L.foldl sweepOne db).nextId = db.nextId ∧
    (L.foldl sweepOne db).pakets.map Paket.id = db.pakets.map Paket.id ∧
    (L.foldl sweepOne db).penyewaans.map Penyewaan.id =
      db.penyewaans.map Penyewaan.id ∧
    (L.foldl sweepOne db).notifs = db.notifs ++ L.map warnNotif ∧
    (∀ pid, stokOf (L.foldl sweepOne db) pid =
      stokOf db pid + (L.map (fun o => sweepGain db o pid)).sum) := by
  induction L generalizing db with
  | nil => simp
  | cons o L ih =>
    rw [List.foldl_cons]
    obtain ⟨ih1, ih2, ih3, ih4, ih5, ih6, ih7⟩ := ih (sweepOne db o)
    refine ⟨?_, ?_, ?_, ?_, ?_, ?_, ?_⟩
    · rw [ih1, sweepOne_details]
    · rw [ih2, sweepOne_transaksis]
    · rw [ih3, sweepOne_nextId]
    · rw [ih4, sweepOne_pakets_ids]
    · rw [ih5, sweepOne_penyewaans_ids]
    · rw [ih6, sweepOne_notifs, List.map_cons]
      simp
    · intro pid
      rw [ih7 pid, sweepOne_stok]
      have hcong : ∀ o2, sweepGain (sweepOne db o) o2 pid = sweepGain db o2 pid :=
        fun o2 => sweepGain_congr db (sweepOne db o) o2 pid
          (sweepOne_details db o) (sweepOne_pakets_ids db o)
      rw [List.map_congr_left (fun o2 _ => hcong o2), List.map_cons, List.sum_cons]
      ring

theorem sweep_foldl_find (L : List Penyewaan) (db : DB)
    (hL : ∀ o ∈ L, findPenyewaan db o.id = some o)
    (hnd : (L.map Penyewaan.id).Nodup) :
    ∀ oid, findPenyewaan (L.foldl sweepOne db) oid =
      match findBy Penyewaan.id oid L with
      | some o => some { o with status := OrderStatus.cancelled }
      | none => findPenyewaan db oid := by
  induction L generalizing db with
  | nil =>
    intro oid
    simp [findBy]
  | cons o L ih =>
    rw [List.map_cons, List.nodup_cons] at hnd
    intro oid
    rw [List.foldl_cons]
    have hLrest : ∀ o2 ∈ L, findPenyewaan (sweepOne db o) o2.id = some o2 := by
      intro o2 h2
      have hne : o.id ≠ o2.id := by
        intro hc
        exact hnd.1 (hc ▸ List.mem_map_of_mem Penyewaan.id h2)
      rw [sweepOne_find_ne db o o2.id hne]
      exact hL o2 (List.mem_cons_of_mem o h2)
    rw [ih (sweepOne db o) hLrest hnd.2 oid, findBy_cons]
    by_cases hoid : o.id = oid
    · rw [if_pos hoid]
      have hnone : findBy Penyewaan.id oid L = none := by
        rw [findBy_eq_none_iff]
        intro z hz hzk
        exact hnd.1 ((hzk.trans hoid.symm) ▸ List.mem_map_of_mem Penyewaan.id hz)
      rw [hnone]
      simp only []
      rw [← hoid]
      exact sweepOne_find_eq db o (by rw [hL o (List.mem_cons_self o L)]; rfl)
    · rw [if_neg hoid]
      cases hfind : findBy Penyewaan.id oid L with
      | some z => rfl
      | none =>
        simp only []
        exact sweepOne_find_ne db o oid hoid

theorem sweep_foldl_mem (L : List Penyewaan) (db : DB) :
    ∀ z ∈ (L.foldl sweepOne db).penyewaans,
      z ∈ db.penyewaans ∨
      ∃ o ∈ L, z = { o with status := OrderStatus.cancelled } := by
  induction L generalizing db with
  | nil =>
    intro z hz
    exact Or.inl hz
  | cons o L ih =>
    intro z hz
    rw [List.foldl_cons] at hz
    rcases ih (sweepOne db o) z hz with hmem | ⟨o2, h2, hz2⟩
    · have : (sweepOne db o).penyewaans =
          replaceBy Penyewaan.id { o with status := OrderStatus.cancelled }
            db.penyewaans := by
        unfold sweepOne
        cases firstDetail db o.id <;> cases o.paket.bind (findPaket db) <;> rfl
      rw [this] at hmem
      rcases mem_replaceBy Penyewaan.id _ z db.penyewaans hmem with hzx | hzm
      · exact Or.inr ⟨o, List.mem_cons_self o L, hzx⟩
      · exact Or.inl hzm
    · exact Or.inr ⟨o2, List.mem_cons_of_mem o h2, hz2⟩

theorem sweep_foldl_WF (L : List Penyewaan) (db : DB) (hWF : WF db)
    (hL : ∀ o ∈ L, o.id < db.nextId ∧
      ∀ pid ∈ o.paket.toList, pid ∈ db.pakets.map Paket.id) :
    WF (L.foldl sweepOne db) := by
  induction L generalizing db with
  | nil => exact hWF
  | cons o L ih =>
    rw [List.foldl_cons]
    have h0 := hL o (List.mem_cons_self o L)
    refine ih (sweepOne db o) (sweepOne_WF db o hWF h0.1 h0.2) ?_
    intro o2 h2
    rw [sweepOne_nextId, sweepOne_pakets_ids]
    exact hL o2 (List.mem_cons_of_mem o h2)

/-! ### Conservation of stock + active reservations -/

theorem conserved_trans (db1 db2 db3 : DB) (h1 : conserved db1 db2)
    (h2 : conserved db2 db3) : conserved db1 db3 := fun pid =>
  (h2 pid).trans (h1 pid)

theorem orderQty_append_fresh (dts : List DetailPenyewaan) (dd : DetailPenyewaan)
    (oid : Nat) (hne : dd.penyewaan ≠ oid) :
    orderQty (dts ++ [dd]) oid = orderQty dts oid := by
  unfold orderQty
  rw [List.find?_append]
  cases h : dts.find? (fun d => d.penyewaan == oid) with
  | some d => rfl
  | none =>
    have h2 : ([dd].find? (fun d => d.penyewaan == oid)) = none := by
      simp [List.find?_cons, hne]
    rw [Option.none_or, h2]

theorem resTerm_status_congr (details : List DetailPenyewaan) (pid : Nat)
    (o : Penyewaan) (st : OrderStatus) (hact : isActive o.status = isActive st) :
    resTerm details pid { o with status := st } = resTerm details pid o := by
  unfold resTerm
  simp only []
  rw [← hact]

theorem resTerm_inactive (details : List DetailPenyewaan) (pid : Nat)
    (o : Penyewaan) (hin : isActive o.status = false) :
    resTerm details pid o = 0 := by
  unfold resTerm
  rw [hin]
  rfl

theorem resTerm_congr_details (details details2 : List DetailPenyewaan) (pid : Nat)
    (o : Penyewaan) (h : orderQty details2 o.id = orderQty details o.id) :
    resTerm details2 pid o = resTerm details pid o := by
  unfold resTerm
  rw [h]

theorem reservedQty_update_status (db : DB) (o : Penyewaan) (st : OrderStatus)
    (pid : Nat) (hnd : (db.penyewaans.map Penyewaan.id).Nodup)
    (ho : findPenyewaan db o.id = some o) :
    reservedQty (updatePenyewaan db { o with status := st }) pid =
      reservedQty db pid - resTerm db.details pid o +
        resTerm db.details pid { o with status := st } := by
  unfold reservedQty
  simp only [updatePenyewaan_penyewaans, updatePenyewaan_details]
  exact sum_map_replaceBy Penyewaan.id { o with status := st } o db.penyewaans
    (resTerm db.details pid) hnd ho

theorem conserved_booking (db : DB) (user pid0 jumlah : Nat) (tgl now : Int)
    (hWF : WF db) : conserved db (booking_view db user pid0 jumlah tgl now).2 := by
  obtain ⟨hw1, hw2, hw3, hw4, hw5, hw6, hw7⟩ := hWF
  intro pid
  unfold booking_view
  cases hp : findPaket db pid0 with
  | none => rfl
  | some p =>
    simp only []
    by_cases hav : is_available p jumlah
    · rw [if_pos hav]
      have hle : (jumlah : Int) ≤ p.stok := by
        unfold is_available at hav
        simpa using hav
      have hpid0 : p.id = pid0 := findBy_key Paket.id pid0 db.pakets p hp
      have hfreshT : ∀ u ∈ db.transaksis, u.id ≠ db.nextId + 1 := by
        intro u hu
        have := (hw6 u hu).1
        omega
      simp only [updatePaket_pakets, updatePaket_penyewaans, updatePaket_details,
        updatePaket_transaksis, updatePaket_notifs, updatePaket_nextId,
        addNotif_pakets, addNotif_penyewaans, addNotif_details, addNotif_transaksis,
        addNotif_nextId, addNotif_notifs]
      rw [create_payment_notification_append _ _ _ _ _ _ _ hfreshT]
      unfold reservedQty stokOf findPaket
      simp only []
      rw [List.map_append, List.sum_append]
      have hmapcong : List.map
          (resTerm (db.details ++
            [{ penyewaan := db.nextId, jumlah := jumlah, hargaSatuan := p.harga }]) pid)
          db.penyewaans =
          List.map (resTerm db.details pid) db.penyewaans := by
        apply List.map_congr_left
        intro o ho
        apply resTerm_congr_details
        apply orderQty_append_fresh
        show db.nextId ≠ o.id
        have := hw4 o ho
        omega
      rw [hmapcong]
      have hqty : orderQty (db.details ++
          [{ penyewaan := db.nextId, jumlah := jumlah, hargaSatuan := p.harga }])
          db.nextId = (jumlah : Int) := by
        unfold orderQty
        rw [List.find?_append]
        have h1 : db.details.find? (fun d => d.penyewaan == db.nextId) = none := by
          rw [List.find?_eq_none]
          intro d hd
          have := hw5 d hd
          simp
          omega
        rw [h1, Option.none_or]
        simp [List.find?_cons]
      by_cases hpp : pid = pid0
      · subst hpp
        have h2 : findBy Paket.id pid
            (replaceBy Paket.id { p with stok := p.stok - (jumlah : Int) } db.pakets) =
            some { p with stok := p.stok - (jumlah : Int) } := by
          rw [← hpid0]
          exact findBy_replaceBy_eq Paket.id
            { p with stok := p.stok - (jumlah : Int) } db.pakets
            (by rw [hpid0]; rw [show findBy Paket.id pid db.pakets = some p from hp]; rfl)
        rw [h2, show findBy Paket.id pid db.pakets = some p from hp]
        have hterm : resTerm (db.details ++
            [{ penyewaan := db.nextId, jumlah := jumlah, hargaSatuan := p.harga }]) pid
            { id := db.nextId, pelangganUser := user, paket := some pid,
              tglPasang := tgl, ongkosKirim := 0, status := OrderStatus.pending,
              tanggalDibuat := now } = (jumlah : Int) := by
          unfold resTerm
          simp only [isActive]
          rw [if_pos (by simp)]
          exact hqty
        simp only [List.map_cons, List.map_nil, List.sum_cons, List.sum_nil]
        rw [hterm]
        ring
      · rw [findBy_replaceBy_ne Paket.id { p with stok := p.stok - (jumlah : Int) }
          pid (by show p.id ≠ pid; rw [hpid0]; exact fun hc => hpp hc.symm) db.pakets]
        have hterm : resTerm (db.details ++
            [{ penyewaan := db.nextId, jumlah := jumlah, hargaSatuan := p.harga }]) pid
            { id := db.nextId, pelangganUser := user, paket := some pid0,
              tglPasang := tgl, ongkosKirim := 0, status := OrderStatus.pending,
              tanggalDibuat := now } = 0 := by
          unfold resTerm
          rw [if_neg (by
            intro hcond
            rw [Bool.and_eq_true] at hcond
            have h2 := hcond.2
            rw [beq_iff_eq] at h2
            exact hpp (Option.some_inj.mp h2).symm)]
        simp only [List.map_cons, List.map_nil, List.sum_cons, List.sum_nil]
        rw [hterm]
        ring
    · rw [if_neg hav]

theorem isInactive_eq_not_isActive (s : OrderStatus) :
    isInactive s = !(isActive s) := by
  cases s <;> rfl

theorem stokOf_updatePenyewaan (db : DB) (o : Penyewaan) (pid : Nat) :
    stokOf (updatePenyewaan db o) pid = stokOf db pid := rfl

theorem reservedQty_updatePaket (db : DB) (x : Paket) (pid : Nat) :
    reservedQty (updatePaket db x) pid = reservedQty db pid := rfl

theorem resTerm_no_detail (details : List DetailPenyewaan) (pid : Nat)
    (o : Penyewaan) (h : details.find? (fun d => d.penyewaan == o.id) = none) :
    resTerm details pid o = 0 := by
  unfold resTerm orderQty
  rw [h]
  simp

theorem resTerm_no_paket (details : List DetailPenyewaan) (pid : Nat)
    (o : Penyewaan) (h : o.paket = none) : resTerm details pid o = 0 := by
  unfold resTerm
  rw [h]
  simp

theorem conserved_save_model (db : DB) (oid : Nat) (st : OrderStatus)
    (hWF : WF db) : conserved db (save_model db oid st).1 := by
  obtain ⟨hw1, hw2, hw3, hw4, hw5, hw6, hw7⟩ := hWF
  intro pid
  unfold save_model
  cases ho : findPenyewaan db oid with
  | none => rfl
  | some o =>
    simp only []
    have hoid : o.id = oid := findBy_key Penyewaan.id oid db.penyewaans o ho
    have homem : o ∈ db.penyewaans := findBy_mem Penyewaan.id oid db.penyewaans o ho
    have ho2 : findPenyewaan db o.id = some o := by
      rw [hoid]
      exact ho
    have hpaketproj : (({ o with status := st } : Penyewaan).paket) = o.paket := rfl
    have hdetnone : firstDetail db oid = none →
        (resTerm db.details pid o = 0 ∧
         resTerm db.details pid { o with status := st } = 0) := by
      intro hd
      constructor
      · apply resTerm_no_detail
        rw [hoid]
        exact hd
      · apply resTerm_no_detail
        rw [show ({ o with status := st } : Penyewaan).id = o.id from rfl, hoid]
        exact hd
    have hpaknone : o.paket = none →
        (resTerm db.details pid o = 0 ∧
         resTerm db.details pid { o with status := st } = 0) := by
      intro hpo
      exact ⟨resTerm_no_paket _ _ _ hpo,
        resTerm_no_paket _ _ _ (by show o.paket = none; exact hpo)⟩
    have hdangling : ∀ pid0, o.paket = some pid0 →
        o.paket.bind (findPaket db) = none → False := by
      intro pid0 hpo hb
      rw [hpo] at hb
      have hmem : pid0 ∈ db.pakets.map Paket.id := by
        refine hw7 o homem pid0 ?_
        rw [hpo]
        simp
      have hsome : (findBy Paket.id pid0 db.pakets).isSome :=
        (findBy_isSome_iff Paket.id pid0 db.pakets).mpr hmem
      have hb2 : findBy Paket.id pid0 db.pakets = none := hb
      rw [hb2] at hsome
      exact absurd hsome (by simp)
    by_cases hc1 : (isActive o.status && isInactive st) = true
    · rw [if_pos hc1]
      rw [Bool.and_eq_true] at hc1
      have hstin : isActive st = false := by
        have := hc1.2
        rw [isInactive_eq_not_isActive] at this
        cases h2 : isActive st
        · rfl
        · rw [h2] at this
          exact absurd this (by simp)
      rw [hpaketproj]
      cases hd : firstDetail db oid with
      | none =>
        obtain ⟨ht1, ht2⟩ := hdetnone hd
        cases o.paket.bind (findPaket db) <;>
          (simp only [stokOf_updatePenyewaan]
           rw [reservedQty_update_status db o st pid hw2 ho2, ht1, ht2]
           ring)
      | some d =>
        cases hb : o.paket.bind (findPaket db) with
        | none =>
          by_cases hpo : o.paket = none
          · obtain ⟨ht1, ht2⟩ := hpaknone hpo
            simp only [stokOf_updatePenyewaan]
            rw [reservedQty_update_status db o st pid hw2 ho2, ht1, ht2]
            ring
          · obtain ⟨pid0, hpo2⟩ := Option.ne_none_iff_exists'.mp hpo
            exact absurd (hdangling pid0 hpo2 hb) (fun h => h)
        | some p =>
          obtain ⟨pid0, hpo⟩ : ∃ pid0, o.paket = some pid0 := by
            cases hpo : o.paket with
            | none => rw [hpo] at hb; exact absurd hb (by simp)
            | some x => exact ⟨x, rfl⟩
          rw [hpo] at hb
          have hfp : findBy Paket.id pid0 db.pakets = some p := hb
          have hp0 : p.id = pid0 := findBy_key Paket.id pid0 db.pakets p hfp
          simp only [stokOf_updatePenyewaan]
          rw [show reservedQty (updatePenyewaan
              (updatePaket db { p with stok := p.stok + (d.jumlah : Int) })
              { o with status := st }) pid =
            reservedQty (updatePaket db { p with stok := p.stok + (d.jumlah : Int) }) pid
              - resTerm db.details pid o + resTerm db.details pid { o with status := st }
            from reservedQty_update_status _ o st pid hw2 ho2]
          rw [reservedQty_updatePaket]
          have ht2 : resTerm db.details pid { o with status := st } = 0 := by
            unfold resTerm
            rw [show ({ o with status := st } : Penyewaan).status = st from rfl, hstin]
            simp
          rw [ht2]
          unfold stokOf findPaket
          simp only [updatePaket_pakets]
          by_cases hpp : pid = pid0
          · subst hpp
            have h2 : findBy Paket.id pid
                (replaceBy Paket.id { p with stok := p.stok + (d.jumlah : Int) }
                  db.pakets) = some { p with stok := p.stok + (d.jumlah : Int) } := by
              rw [← hp0]
              exact findBy_replaceBy_eq Paket.id
                { p with stok := p.stok + (d.jumlah : Int) } db.pakets
                (by rw [hp0, hfp]; rfl)
            rw [h2, hfp]
            have ht1 : resTerm db.details pid o = (d.jumlah : Int) := by
              unfold resTerm
              rw [if_pos (by
                rw [Bool.and_eq_true]
                refine ⟨hc1.1, ?_⟩
                rw [beq_iff_eq, hpo])]
              unfold orderQty
              rw [show db.details.find? (fun x => x.penyewaan == o.id) = some d from
                by rw [hoid]; exact hd]
            rw [ht1]
            ring
          · rw [findBy_replaceBy_ne Paket.id { p with stok := p.stok + (d.jumlah : Int) }
              pid (by show p.id ≠ pid; rw [hp0]; exact fun hc => hpp hc.symm) db.pakets]
            have ht1 : resTerm db.details pid o = 0 := by
              unfold resTerm
              rw [if_neg (by
                intro hcond
                rw [Bool.and_eq_true] at hcond
                have h2 := hcond.2
                rw [beq_iff_eq, hpo] at h2
                exact hpp (Option.some_inj.mp h2).symm)]
            rw [ht1]
            ring
    · rw [if_neg (by simpa using hc1)]
      by_cases hc2 : (isInactive o.status && isActive st) = true
      · rw [if_pos hc2]
        rw [Bool.and_eq_true] at hc2
        have hoin : isActive o.status = false := by
          have := hc2.1
          rw [isInactive_eq_not_isActive] at this
          cases h2 : isActive o.status
          · rfl
          · rw [h2] at this
            exact absurd this (by simp)
        rw [hpaketproj]
        cases hd : firstDetail db oid with
        | none =>
          obtain ⟨ht1, ht2⟩ := hdetnone hd
          cases o.paket.bind (findPaket db) <;>
            (simp only [stokOf_updatePenyewaan]
             rw [reservedQty_update_status db o st pid hw2 ho2, ht1, ht2]
             ring)
        | some d =>
          cases hb : o.paket.bind (findPaket db) with
          | none =>
            by_cases hpo : o.paket = none
            · obtain ⟨ht1, ht2⟩ := hpaknone hpo
              simp only [stokOf_updatePenyewaan]
              rw [reservedQty_update_status db o st pid hw2 ho2, ht1, ht2]
              ring
            · obtain ⟨pid0, hpo2⟩ := Option.ne_none_iff_exists'.mp hpo
              exact absurd (hdangling pid0 hpo2 hb) (fun h => h)
          | some p =>
            obtain ⟨pid0, hpo⟩ : ∃ pid0, o.paket = some pid0 := by
              cases hpo : o.paket with
              | none => rw [hpo] at hb; exact absurd hb (by simp)
              | some x => exact ⟨x, rfl⟩
            rw [hpo] at hb
            have hfp : findBy Paket.id pid0 db.pakets = some p := hb
            have hp0 : p.id = pid0 := findBy_key Paket.id pid0 db.pakets p hfp
            simp only []
            by_cases hguard : (d.jumlah : Int) ≤ p.stok
            · rw [if_pos hguard]
              simp only [stokOf_updatePenyewaan]
              rw [show reservedQty (updatePenyewaan
                  (updatePaket db { p with stok := p.stok - (d.jumlah : Int) })
                  { o with status := st }) pid =
                reservedQty (updatePaket db
                    { p with stok := p.stok - (d.jumlah : Int) }) pid
                  - resTerm db.details pid o +
                    resTerm db.details pid { o with status := st }
                from reservedQty_update_status _ o st pid hw2 ho2]
              rw [reservedQty_updatePaket]
              have ht1 : resTerm db.details pid o = 0 := by
                unfold resTerm
                rw [hoin]
                simp
              rw [ht1]
              unfold stokOf findPaket
              simp only [updatePaket_pakets]
              by_cases hpp : pid = pid0
              · subst hpp
                have h2 : findBy Paket.id pid
                    (replaceBy Paket.id { p with stok := p.stok - (d.jumlah : Int) }
                      db.pakets) = some { p with stok := p.stok - (d.jumlah : Int) } := by
                  rw [← hp0]
                  exact findBy_replaceBy_eq Paket.id
                    { p with stok := p.stok - (d.jumlah : Int) } db.pakets
                    (by rw [hp0, hfp]; rfl)
                rw [h2, hfp]
                have ht2 : resTerm db.details pid { o with status := st } =
                    (d.jumlah : Int) := by
                  unfold resTerm
                  rw [if_pos (by
                    rw [Bool.and_eq_true]
                    refine ⟨hc2.2, ?_⟩
                    rw [beq_iff_eq]
                    show o.paket = some pid
                    rw [hpo])]
                  unfold orderQty
                  rw [show db.details.find?
                      (fun x => x.penyewaan ==
                        ({ o with status := st } : Penyewaan).id) = some d from by
                    show db.details.find? (fun x => x.penyewaan == o.id) = some d
                    rw [hoid]
                    exact hd]
                rw [ht2]
                ring
              · rw [findBy_replaceBy_ne Paket.id
                  { p with stok := p.stok - (d.jumlah : Int) } pid
                  (by show p.id ≠ pid; rw [hp0]; exact fun hc => hpp hc.symm) db.pakets]
                have ht2 : resTerm db.details pid { o with status := st } = 0 := by
                  unfold resTerm
                  rw [if_neg (by
                    intro hcond
                    rw [Bool.and_eq_true] at hcond
                    have h2 := hcond.2
                    rw [beq_iff_eq] at h2
                    have h3 : o.paket = some pid := h2
                    rw [hpo] at h3
                    exact hpp (Option.some_inj.mp h3).symm)]
                rw [ht2]
                ring
            · rw [if_neg hguard]
              have heta : ({ { o with status := st } with status := o.status } :
                  Penyewaan) = o := rfl
              rw [heta, updatePenyewaan_found db oid o hw2 ho]
      · rw [if_neg (by simpa using hc2)]
        have hsame : isActive o.status = isActive st := by
          rw [Bool.and_eq_true] at hc1 hc2
          rw [isInactive_eq_not_isActive] at hc1 hc2
          cases h1 : isActive o.status <;> cases h2 : isActive st
          · rfl
          · exfalso
            apply hc2
            rw [h1, h2]
            exact ⟨rfl, rfl⟩
          · exfalso
            apply hc1
            rw [h1, h2]
            exact ⟨rfl, rfl⟩
          · rfl
        simp only [stokOf_updatePenyewaan]
        rw [reservedQty_update_status db o st pid hw2 ho2]
        rw [resTerm_status_congr db.details pid o st hsame]
        ring

theorem stokOf_saveTransaksi (db : DB) (t : Transaksi) (pid : Nat) :
    stokOf (saveTransaksi db t) pid = stokOf db pid := by
  unfold stokOf findPaket
  rw [saveTransaksi_pakets]

theorem reservedQty_saveTransaksi (db : DB) (t : Transaksi) (pid : Nat) :
    reservedQty (saveTransaksi db t) pid = reservedQty db pid := by
  unfold reservedQty
  rw [saveTransaksi_penyewaans, saveTransaksi_details]

theorem conserved_verifyOne (db : DB) (oid : Nat) (hWF : WF db) :
    conserved db (verifyOne db oid).1 := by
  obtain ⟨hw1, hw2, hw3, hw4, hw5, hw6, hw7⟩ := hWF
  rcases verifyOne_cases db oid with ⟨heq, _⟩ | ⟨o, t, ho, hs, ht, _, heq⟩
  · rw [heq]
    exact fun pid => rfl
  · rw [heq]
    intro pid
    simp only []
    have hoid : o.id = oid := findBy_key Penyewaan.id oid db.penyewaans o ho
    have ho2 : findPenyewaan (saveTransaksi db { t with status := TransStatus.verified })
        o.id = some o := by
      unfold findPenyewaan
      rw [saveTransaksi_penyewaans]
      rw [hoid]
      exact ho
    have hnd2 : ((saveTransaksi db { t with status := TransStatus.verified }).penyewaans.map
        Penyewaan.id).Nodup := by
      rw [saveTransaksi_penyewaans]
      exact hw2
    rw [stokOf_updatePenyewaan, stokOf_saveTransaksi]
    rw [reservedQty_update_status _ o OrderStatus.confirmed pid hnd2 ho2]
    rw [reservedQty_saveTransaksi]
    rw [show (saveTransaksi db { t with status := TransStatus.verified }).details =
      db.details from saveTransaksi_details _ _]
    rw [resTerm_status_congr db.details pid o OrderStatus.confirmed
      (by rw [hs]; rfl)]
    ring

theorem conserved_kfold (batch : List Nat) :
    ∀ (db : DB) (a b : Nat), WF db →
      conserved db (batch.foldl verifyStep (db, a, b)).1 := by
  induction batch with
  | nil =>
    intro db a b _
    exact fun pid => rfl
  | cons oid batch ih =>
    intro db a b hWF
    rw [List.foldl_cons]
    obtain ⟨a2, b2, hstep2⟩ : ∃ a2 b2,
        verifyStep (db, a, b) oid = ((verifyOne db oid).1, a2, b2) := by
      unfold verifyStep
      cases h : (verifyOne db oid).2
      · exact ⟨a, b + 1, by simp [h]⟩
      · exact ⟨a + 1, b, by simp [h]⟩
    rw [hstep2]
    exact conserved_trans _ _ _ (conserved_verifyOne db oid hWF)
      (ih (verifyOne db oid).1 a2 b2 (verifyOne_WF db oid hWF))

theorem conserved_sweepOne (db : DB) (o : Penyewaan)
    (hnd : (db.penyewaans.map Penyewaan.id).Nodup)
    (ho : findPenyewaan db o.id = some o)
    (hpend : o.status = OrderStatus.pending)
    (hfk : ∀ pid ∈ o.paket.toList, pid ∈ db.pakets.map Paket.id) :
    conserved db (sweepOne db o) := by
  intro pid
  unfold sweepOne
  have htc : resTerm db.details pid { o with status := OrderStatus.cancelled } = 0 := by
    unfold resTerm
    rw [show ({ o with status := OrderStatus.cancelled } : Penyewaan).status =
      OrderStatus.cancelled from rfl]
    simp [isActive]
  cases hd : firstDetail db o.id with
  | none =>
    have ht1 : resTerm db.details pid o = 0 := resTerm_no_detail _ _ _ hd
    cases o.paket.bind (findPaket db) <;>
      (simp only [stokOf_updatePenyewaan]
       rw [show stokOf (addNotif (updatePenyewaan db
           { o with status := OrderStatus.cancelled }) (warnNotif o)) pid =
         stokOf db pid from rfl]
       rw [show reservedQty (addNotif (updatePenyewaan db
           { o with status := OrderStatus.cancelled }) (warnNotif o)) pid =
         reservedQty (updatePenyewaan db
           { o with status := OrderStatus.cancelled }) pid from rfl]
       rw [reservedQty_update_status db o OrderStatus.cancelled pid hnd ho, ht1, htc]
       ring)
  | some d =>
    cases hb : o.paket.bind (findPaket db) with
    | none =>
      by_cases hpo : o.paket = none
      · have ht1 : resTerm db.details pid o = 0 := resTerm_no_paket _ _ _ hpo
        rw [show stokOf (addNotif (updatePenyewaan db
            { o with status := OrderStatus.cancelled }) (warnNotif o)) pid =
          stokOf db pid from rfl]
        rw [show reservedQty (addNotif (updatePenyewaan db
            { o with status := OrderStatus.cancelled }) (warnNotif o)) pid =
          reservedQty (updatePenyewaan db
            { o with status := OrderStatus.cancelled }) pid from rfl]
        rw [reservedQty_update_status db o OrderStatus.cancelled pid hnd ho, ht1, htc]
        ring
      · exfalso
        obtain ⟨pid0, hpo2⟩ := Option.ne_none_iff_exists'.mp hpo
        rw [hpo2] at hb
        have hmem : pid0 ∈ db.pakets.map Paket.id := by
          refine hfk pid0 ?_
          rw [hpo2]
          simp
        have hsome : (findBy Paket.id pid0 db.pakets).isSome :=
          (findBy_isSome_iff Paket.id pid0 db.pakets).mpr hmem
        have hb2 : findBy Paket.id pid0 db.pakets = none := hb
        rw [hb2] at hsome
        exact absurd hsome (by simp)
    | some p =>
      obtain ⟨pid0, hpo⟩ : ∃ pid0, o.paket = some pid0 := by
        cases hpo : o.paket with
        | none => rw [hpo] at hb; exact absurd hb (by simp)
        | some x => exact ⟨x, rfl⟩
      rw [hpo] at hb
      have hfp : findBy Paket.id pid0 db.pakets = some p := hb
      have hp0 : p.id = pid0 := findBy_key Paket.id pid0 db.pakets p hfp
      simp only []
      have hupd : reservedQty (addNotif (updatePenyewaan
          (updatePaket db { p with stok := p.stok + (d.jumlah : Int) })
          { o with status := OrderStatus.cancelled }) (warnNotif o)) pid =
          reservedQty (updatePenyewaan
            (updatePaket db { p with stok := p.stok + (d.jumlah : Int) })
            { o with status := OrderStatus.cancelled }) pid := rfl
      rw [hupd]
      have ho3 : findPenyewaan (updatePaket db
          { p with stok := p.stok + (d.jumlah : Int) }) o.id = some o := ho
      have hnd3 : ((updatePaket db
          { p with stok := p.stok + (d.jumlah : Int) }).penyewaans.map
          Penyewaan.id).Nodup := hnd
      rw [show reservedQty (updatePenyewaan
          (updatePaket db { p with stok := p.stok + (d.jumlah : Int) })
          { o with status := OrderStatus.cancelled }) pid =
        reservedQty (updatePaket db { p with stok := p.stok + (d.jumlah : Int) }) pid
          - resTerm db.details pid o +
            resTerm db.details pid { o with status := OrderStatus.cancelled }
        from reservedQty_update_status _ o OrderStatus.cancelled pid hnd3 ho3]
      rw [reservedQty_updatePaket, htc]
      have hstok : stokOf (addNotif (updatePenyewaan
          (updatePaket db { p with stok := p.stok + (d.jumlah : Int) })
          { o with status := OrderStatus.cancelled }) (warnNotif o)) pid =
          stokOf (updatePaket db { p with stok := p.stok + (d.jumlah : Int) }) pid := rfl
      rw [hstok]
      unfold stokOf findPaket
      simp only [updatePaket_pakets]
      by_cases hpp : pid = pid0
      · subst hpp
        have h2 : findBy Paket.id pid
            (replaceBy Paket.id { p with stok := p.stok + (d.jumlah : Int) }
              db.pakets) = some { p with stok := p.stok + (d.jumlah : Int) } := by
          rw [← hp0]
          exact findBy_replaceBy_eq Paket.id
            { p with stok := p.stok + (d.jumlah : Int) } db.pakets
            (by rw [hp0, hfp]; rfl)
        rw [h2, hfp]
        have ht1 : resTerm db.details pid o = (d.jumlah : Int) := by
          unfold resTerm
          rw [if_pos (by
            rw [Bool.and_eq_true]
            refine ⟨by rw [hpend]; rfl, ?_⟩
            rw [beq_iff_eq, hpo])]
          unfold orderQty
          rw [show db.details.find? (fun x => x.penyewaan == o.id) = some d from hd]
        rw [ht1]
        ring
      · rw [findBy_replaceBy_ne Paket.id { p with stok := p.stok + (d.jumlah : Int) }
          pid (by show p.id ≠ pid; rw [hp0]; exact fun hc => hpp hc.symm) db.pakets]
        have ht1 : resTerm db.details pid o = 0 := by
          unfold resTerm
          rw [if_neg (by
            intro hcond
            rw [Bool.and_eq_true] at hcond
            have h2 := hcond.2
            rw [beq_iff_eq, hpo] at h2
            exact hpp (Option.some_inj.mp h2).symm)]
        rw [ht1]
        ring

theorem conserved_sweep_fold (L : List Penyewaan) :
    ∀ db : DB, (db.penyewaans.map Penyewaan.id).Nodup →
      (L.map Penyewaan.id).Nodup →
      (∀ o ∈ L, findPenyewaan db o.id = some o ∧ o.status = OrderStatus.pending ∧
        ∀ pid ∈ o.paket.toList, pid ∈ db.pakets.map Paket.id) →
      conserved db (L.foldl sweepOne db) := by
  induction L with
  | nil =>
    intro db _ _ _
    exact fun pid => rfl
  | cons o L ih =>
    intro db hnd hndL hL
    rw [List.map_cons, List.nodup_cons] at hndL
    rw [List.foldl_cons]
    have h0 := hL o (List.mem_cons_self o L)
    refine conserved_trans _ _ _
      (conserved_sweepOne db o hnd h0.1 h0.2.1 h0.2.2)
      (ih (sweepOne db o) ?_ hndL.2 ?_)
    · rw [sweepOne_penyewaans_ids]
      exact hnd
    · intro o2 h2
      obtain ⟨hfind2, hpend2, hfk2⟩ := hL o2 (List.mem_cons_of_mem o h2)
      refine ⟨?_, hpend2, ?_⟩
      · rw [sweepOne_find_ne db o o2.id (by
          intro hc
          exact hndL.1 (hc ▸ List.mem_map_of_mem Penyewaan.id h2))]
        exact hfind2
      · intro pid hpid
        rw [sweepOne_pakets_ids]
        exact hfk2 pid hpid

theorem conserved_sweep (db : DB) (now : Int) (hWF : WF db) :
    conserved db (cancel_expired_pending_orders db now).2 := by
  obtain ⟨hw1, hw2, hw3, hw4, hw5, hw6, hw7⟩ := hWF
  have hC : (cancel_expired_pending_orders db now).2 =
      (db.penyewaans.filter (expiredFilter db now)).foldl sweepOne db := rfl
  rw [hC]
  refine conserved_sweep_fold _ db hw2
    (hw2.sublist ((List.filter_sublist db.penyewaans).map Penyewaan.id)) ?_
  intro o ho
  have hmem := List.mem_of_mem_filter ho
  have hsel := (List.mem_filter.mp ho).2
  refine ⟨findBy_of_mem_nodup Penyewaan.id o db.penyewaans hw2 hmem, ?_,
    fun pid hpid => hw7 o hmem pid hpid⟩
  unfold expiredFilter at hsel
  rw [Bool.and_eq_true, Bool.and_eq_true] at hsel
  have := hsel.1.1
  rw [beq_iff_eq] at this
  exact this

/-! ### Stock non-negativity (claim C3) -/

/-- Every package row carries a non-negative stock count. -/
def stokNonneg (db : DB) : Prop :=
  ∀ p ∈ db.pakets, 0 ≤ p.stok

instance (db : DB) : Decidable (stokNonneg db) := by
  unfold stokNonneg
  infer_instance

theorem nonneg_booking (db : DB) (user pid0 jumlah : Nat) (tgl now : Int)
    (h : stokNonneg db) :
    stokNonneg (booking_view db user pid0 jumlah tgl now).2 := by
  unfold booking_view
  cases hp : findPaket db pid0 with
  | none => exact h
  | some p =>
    simp only []
    by_cases hav : is_available p jumlah = true
    · rw [if_pos hav]
      intro q hq
      simp only [create_payment_notification_pakets, addNotif_pakets,
        updatePaket_pakets] at hq
      rcases mem_replaceBy Paket.id _ q db.pakets hq with hqe | hqm
      · rw [hqe]
        have hle : (jumlah : Int) ≤ p.stok := by
          unfold is_available at hav
          simpa using hav
        show 0 ≤ p.stok - (jumlah : Int)
        omega
      · exact h q hqm
    · rw [if_neg hav]
      exact h

theorem nonneg_save_model (db : DB) (oid : Nat) (st : OrderStatus)
    (h : stokNonneg db) : stokNonneg (save_model db oid st).1 := by
  unfold save_model
  cases ho : findPenyewaan db oid with
  | none => exact h
  | some o =>
    simp only []
    by_cases hc1 : (isActive o.status && isInactive st) = true
    · rw [if_pos hc1]
      cases hd : firstDetail db oid with
      | none =>
        cases ({ o with status := st } : Penyewaan).paket.bind (findPaket db) <;>
          exact h
      | some d =>
        cases hb : ({ o with status := st } : Penyewaan).paket.bind (findPaket db) with
        | none => exact h
        | some p =>
          rcases Option.bind_eq_some.mp hb with ⟨pid0, hpo, hfp⟩
          have hpmem : p ∈ db.pakets := findBy_mem Paket.id pid0 db.pakets p hfp
          intro q hq
          have hq2 : q ∈ replaceBy Paket.id
              { p with stok := p.stok + (d.jumlah : Int) } db.pakets := hq
          rcases mem_replaceBy Paket.id _ q db.pakets hq2 with hqe | hqm
          · rw [hqe]
            have h0 := h p hpmem
            show 0 ≤ p.stok + (d.jumlah : Int)
            omega
          · exact h q hqm
    · rw [if_neg (by simpa using hc1)]
      by_cases hc2 : (isInactive o.status && isActive st) = true
      · rw [if_pos hc2]
        cases hd : firstDetail db oid with
        | none =>
          cases ({ o with status := st } : Penyewaan).paket.bind (findPaket db) <;>
            exact h
        | some d =>
          cases hb : ({ o with status := st } : Penyewaan).paket.bind (findPaket db) with
          | none => exact h
          | some p =>
            simp only []
            by_cases hguard : (d.jumlah : Int) ≤ p.stok
            · rw [if_pos hguard]
              intro q hq
              have hq2 : q ∈ replaceBy Paket.id
                  { p with stok := p.stok - (d.jumlah : Int) } db.pakets := hq
              rcases mem_replaceBy Paket.id _ q db.pakets hq2 with hqe | hqm
              · rw [hqe]
                show 0 ≤ p.stok - (d.jumlah : Int)
                omega
              · exact h q hqm
            · rw [if_neg hguard]
              exact h
      · rw [if_neg (by simpa using hc2)]
        exact h

theorem verifyOne_pakets (db : DB) (oid : Nat) :
    (verifyOne db oid).1.pakets = db.pakets := by
  rcases verifyOne_cases db oid with ⟨heq, _⟩ | ⟨o, t, _, _, _, _, heq⟩
  · rw [heq]
  · rw [heq]
    exact saveTransaksi_pakets _ _

theorem kfold_pakets (batch : List Nat) :
    ∀ (db : DB) (a b : Nat),
      (batch.foldl verifyStep (db, a, b)).1.pakets = db.pakets := by
  induction batch with
  | nil =>
    intro db a b
    rfl
  | cons oid batch ih =>
    intro db a b
    rw [List.foldl_cons]
    obtain ⟨a2, b2, hstep2⟩ : ∃ a2 b2,
        verifyStep (db, a, b) oid = ((verifyOne db oid).1, a2, b2) := by
      unfold verifyStep
      cases h2 : (verifyOne db oid).2
      · exact ⟨a, b + 1, by simp [h2]⟩
      · exact ⟨a + 1, b, by simp [h2]⟩
    rw [hstep2, ih, verifyOne_pakets]

theorem nonneg_konfirmasi (db : DB) (batch : List Nat) (h : stokNonneg db) :
    stokNonneg (konfirmasi_pembayaran_masal db batch).1 := by
  intro q hq
  rw [show (konfirmasi_pembayaran_masal db batch).1.pakets = db.pakets from
    kfold_pakets batch db 0 0] at hq
  exact h q hq

theorem nonneg_sweepOne (db : DB) (o : Penyewaan) (h : stokNonneg db) :
    stokNonneg (sweepOne db o) := by
  unfold sweepOne
  cases hd : firstDetail db o.id with
  | none =>
    cases o.paket.bind (findPaket db) <;> exact h
  | some d =>
    cases hb : o.paket.bind (findPaket db) with
    | none => exact h
    | some p =>
      intro q hq
      have hq2 : q ∈ replaceBy Paket.id
          { p with stok := p.stok + (d.jumlah : Int) } db.pakets := hq
      rcases mem_replaceBy Paket.id _ q db.pakets hq2 with hqe | hqm
      · rcases Option.bind_eq_some.mp hb with ⟨pid0, hpo, hfp⟩
        have h0 := h p (findBy_mem Paket.id pid0 db.pakets p hfp)
        rw [hqe]
        show 0 ≤ p.stok + (d.jumlah : Int)
        omega
      · exact h q hqm

theorem nonneg_sweep_fold (L : List Penyewaan) :
    ∀ db : DB, stokNonneg db → stokNonneg (L.foldl sweepOne db) := by
  induction L with
  | nil =>
    intro db h
    exact h
  | cons o L ih =>
    intro db h
    rw [List.foldl_cons]
    exact ih (sweepOne db o) (nonneg_sweepOne db o h)

theorem nonneg_sweep (db : DB) (now : Int) (h : stokNonneg db) :
    stokNonneg (cancel_expired_pending_orders db now).2 :=
  nonneg_sweep_fold _ db h

theorem nonneg_brokenStep (acc : DB × Nat) (pid : Nat) (h : stokNonneg acc.1) :
    stokNonneg (brokenStep acc pid).1 := by
  unfold brokenStep
  cases hp : findPaket acc.1 pid with
  | none => exact h
  | some p =>
    simp only []
    by_cases hpos : (0 : Int) < p.stok
    · rw [if_pos hpos]
      intro q hq
      have hq2 : q ∈ replaceBy Paket.id { p with stok := p.stok - 1 }
          acc.1.pakets := hq
      rcases mem_replaceBy Paket.id _ q acc.1.pakets hq2 with hqe | hqm
      · rw [hqe]
        show 0 ≤ p.stok - 1
        omega
      · exact h q hqm
    · rw [if_neg hpos]
      exact h

theorem nonneg_broken_fold (batch : List Nat) :
    ∀ acc : DB × Nat, stokNonneg acc.1 →
      stokNonneg (batch.foldl brokenStep acc).1 := by
  induction batch with
  | nil =>
    intro acc h
    exact h
  | cons pid batch ih =>
    intro acc h
    rw [List.foldl_cons]
    exact ih (brokenStep acc pid) (nonneg_brokenStep acc pid h)

/-! ## Claim theorems -/

/-- Concrete store for the bulk-verification witness: order 10 is pending
with a paid transaction, order 20 is pending with no paid transaction. -/
def dbC8 : DB :=
  { pakets := [{ id := 1, harga := 100, stok := 3 }],
    penyewaans :=
      [{ id := 10, pelangganUser := 7, paket := some 1, tglPasang := 0,
         ongkosKirim := 0, status := OrderStatus.pending, tanggalDibuat := 0 },
       { id := 20, pelangganUser := 8, paket := some 1, tglPasang := 0,
         ongkosKirim := 0, status := OrderStatus.pending, tanggalDibuat := 0 }],
    details :=
      [{ penyewaan := 10, jumlah := 2, hargaSatuan := 100 },
       { penyewaan := 20, jumlah := 1, hargaSatuan := 100 }],
    transaksis :=
      [{ id := 11, penyewaan := 10, jumlahBayar := 200,
         status := TransStatus.paid, buktiBayar := some 99 },
       { id := 21, penyewaan := 20, jumlahBayar := 100,
         status := TransStatus.pending, buktiBayar := none }],
    notifs := [], nextId := 30 }

/-- C8: the bulk payment-verification action, applied to any batch of
orders, sets the payment status to `verified` and the order status to
`confirmed` exactly for the orders whose own status is `pending` and which
have an associated payment with status exactly `paid`; every other order in
the batch is left unchanged (order row and payments) and counted as
skipped; orders outside the batch are untouched, and the batch is processed
order by order so that each verified order commits its payment and order
writes together, independently of the other orders. -/
theorem C8_bulk_verification (db : DB) (batch : List Nat)
    (hWF : WF db) (hnd : batch.Nodup) :
    (konfirmasi_pembayaran_masal db batch).2.1 =
      (batch.filter (fun oid => qualifies db oid)).length ∧
    (konfirmasi_pembayaran_masal db batch).2.2 =
      (batch.filter (fun oid => !qualifies db oid)).length ∧
    (∀ oid ∈ batch, qualifies db oid = true →
      (∃ o, findPenyewaan db oid = some o ∧ o.status = OrderStatus.pending ∧
        findPenyewaan (konfirmasi_pembayaran_masal db batch).1 oid =
          some { o with status := OrderStatus.confirmed }) ∧
      (∃ t, db.transaksis.find?
              (fun u => u.penyewaan == oid && u.status == TransStatus.paid) = some t ∧
        transOf (konfirmasi_pembayaran_masal db batch).1 oid =
          replaceBy Transaksi.id { t with status := TransStatus.verified }
            (transOf db oid))) ∧
    (∀ oid ∈ batch, qualifies db oid = false →
      findPenyewaan (konfirmasi_pembayaran_masal db batch).1 oid =
        findPenyewaan db oid ∧
      transOf (konfirmasi_pembayaran_masal db batch).1 oid = transOf db oid) ∧
    (∀ oid, oid ∉ batch →
      findPenyewaan (konfirmasi_pembayaran_masal db batch).1 oid =
        findPenyewaan db oid ∧
      transOf (konfirmasi_pembayaran_masal db batch).1 oid = transOf db oid) ∧
    (konfirmasi_pembayaran_masal db batch).1.pakets = db.pakets ∧
    (konfirmasi_pembayaran_masal db batch).1.details = db.details ∧
    (konfirmasi_pembayaran_masal db batch).1.notifs = db.notifs := by
  obtain ⟨h1, h2, h3, h4, h5, h6, h7, h8, h9, h10⟩ :=
    konfirmasi_fold_aux batch db 0 0 hWF hnd
  exact ⟨h6.trans (by omega), h7.trans (by omega), h10, h9, h8, h1, h2, h3⟩

/-- Witness for C8 at a concrete store and the batch containing both
orders. -/
theorem C8_bulk_verification_witness :
    WF dbC8 ∧ ([10, 20] : List Nat).Nodup ∧
    ((konfirmasi_pembayaran_masal dbC8 [10, 20]).2.1 =
      (([10, 20] : List Nat).filter (fun oid => qualifies dbC8 oid)).length ∧
    (konfirmasi_pembayaran_masal dbC8 [10, 20]).2.2 =
      (([10, 20] : List Nat).filter (fun oid => !qualifies dbC8 oid)).length ∧
    (∀ oid ∈ ([10, 20] : List Nat), qualifies dbC8 oid = true →
      (∃ o, findPenyewaan dbC8 oid = some o ∧ o.status = OrderStatus.pending ∧
        findPenyewaan (konfirmasi_pembayaran_masal dbC8 [10, 20]).1 oid =
          some { o with status := OrderStatus.confirmed }) ∧
      (∃ t, dbC8.transaksis.find?
              (fun u => u.penyewaan == oid && u.status == TransStatus.paid) = some t ∧
        transOf (konfirmasi_pembayaran_masal dbC8 [10, 20]).1 oid =
          replaceBy Transaksi.id { t with status := TransStatus.verified }
            (transOf dbC8 oid))) ∧
    (∀ oid ∈ ([10, 20] : List Nat), qualifies dbC8 oid = false →
      findPenyewaan (konfirmasi_pembayaran_masal dbC8 [10, 20]).1 oid =
        findPenyewaan dbC8 oid ∧
      transOf (konfirmasi_pembayaran_masal dbC8 [10, 20]).1 oid = transOf dbC8 oid) ∧
    (∀ oid, oid ∉ ([10, 20] : List Nat) →
      findPenyewaan (konfirmasi_pembayaran_masal dbC8 [10, 20]).1 oid =
        findPenyewaan dbC8 oid ∧
      transOf (konfirmasi_pembayaran_masal dbC8 [10, 20]).1 oid = transOf dbC8 oid) ∧
    (konfirmasi_pembayaran_masal dbC8 [10, 20]).1.pakets = dbC8.pakets ∧
    (konfirmasi_pembayaran_masal dbC8 [10, 20]).1.details = dbC8.details ∧
    (konfirmasi_pembayaran_masal dbC8 [10, 20]).1.notifs = dbC8.notifs) :=
  ⟨by decide, by decide, C8_bulk_verification dbC8 [10, 20] (by decide) (by decide)⟩

/-- Initial store for the happy-path scenario: one package, stock 5, no
orders yet. -/
def dbC9 : DB :=
  { pakets := [{ id := 1, harga := 100, stok := 5 }],
    penyewaans := [], details := [], transaksis := [], notifs := [], nextId := 10 }

/-- The happy path run through the real pipeline: book two units (creates
order 10 and payment 11), upload the payment proof, then bulk-verify. -/
def dbC9after : DB :=
  (konfirmasi_pembayaran_masal
    (upload_payment_view (booking_view dbC9 7 1 2 0 0).2 11 99) [10]).1

/-- C9: the claim states that verifying a payment creates a
payment-confirmed notification for the customer.  The code contradicts it:
the `post_save` handler compares the saved status against a fresh read of
the row it has just written, so the two statuses are always equal and the
notification branch is dead.  After the full happy path (booking, proof
upload, bulk verify) the order is confirmed and the payment verified, yet
no `Pembayaran Diterima` notification exists; in general a transaction save
never changes the notification list. -/
theorem C9_payment_confirmed_notification_missing :
    statusOf dbC9after 10 = some OrderStatus.confirmed ∧
    (findTransaksi dbC9after 11).map Transaksi.status = some TransStatus.verified ∧
    ({ user := none, jenis := NotifJenis.info, judul := "Pesanan Baru" } : Notifikasi)
      ∈ dbC9after.notifs ∧
    (∀ n ∈ dbC9after.notifs, n.judul ≠ "Pembayaran Diterima") ∧
    (∀ (db : DB) (t : Transaksi), (saveTransaksi db t).notifs = db.notifs) :=
  ⟨by decide, by decide, by decide, by decide, saveTransaksi_notifs⟩

/-- Store for the reactivation-guard witness: stock 0, a cancelled order of
quantity 1. -/
def dbC4 : DB :=
  { pakets := [{ id := 1, harga := 100, stok := 0 }],
    penyewaans :=
      [{ id := 10, pelangganUser := 7, paket := some 1, tglPasang := 0,
         ongkosKirim := 0, status := OrderStatus.cancelled, tanggalDibuat := 0 }],
    details := [{ penyewaan := 10, jumlah := 1, hargaSatuan := 100 }],
    transaksis := [], notifs := [], nextId := 12 }

/-- C4: reactivating an inactive (cancelled/completed) order to an active
status (pending/confirmed) fails with an insufficient-stock message when
the package stock is below the order-line quantity, leaving the entire
store unchanged (status stays at its previous value, stock untouched); when
stock suffices, the stock is decremented by exactly the line quantity and
the new status is applied. -/
theorem C4_reactivation_guard (db : DB) (oid : Nat) (newStatus : OrderStatus)
    (o : Penyewaan) (d : DetailPenyewaan) (pid : Nat) (p : Paket)
    (hnd : (db.penyewaans.map Penyewaan.id).Nodup)
    (ho : findPenyewaan db oid = some o)
    (hinact : isInactive o.status = true)
    (hact : isActive newStatus = true)
    (hd : firstDetail db oid = some d)
    (hpak : o.paket = some pid)
    (hp : findPaket db pid = some p) :
    (p.stok < (d.jumlah : Int) →
      save_model db oid newStatus = (db, [AdminMsg.insufficientStock])) ∧
    ((d.jumlah : Int) ≤ p.stok →
      stokOf (save_model db oid newStatus).1 pid = p.stok - (d.jumlah : Int) ∧
      statusOf (save_model db oid newStatus).1 oid = some newStatus ∧
      (save_model db oid newStatus).2 = [AdminMsg.stockReduced d.jumlah]) := by
  have hoid : o.id = oid := findBy_key Penyewaan.id oid db.penyewaans o ho
  have hpid : p.id = pid := findBy_key Paket.id pid db.pakets p hp
  have hbind : (({ o with status := newStatus } : Penyewaan).paket.bind (findPaket db)) =
      some p := by
    show (o.paket.bind (findPaket db)) = some p
    rw [hpak]
    exact hp
  have hcond1 : (isActive o.status && isInactive newStatus) = false := by
    rw [isActive_false_of_inactive o.status hinact]
    rfl
  have hcond2 : (isInactive o.status && isActive newStatus) = true := by
    rw [hinact, hact]
    rfl
  unfold save_model
  rw [ho]
  simp only [hcond1, hcond2, Bool.false_eq_true, if_false, if_true, hd, hbind]
  constructor
  · intro hlt
    rw [if_neg (not_le.mpr hlt)]
    have heta : ({ { o with status := newStatus } with status := o.status } : Penyewaan)
        = o := rfl
    rw [heta, updatePenyewaan_found db oid o hnd ho]
  · intro hle
    rw [if_pos hle]
    refine ⟨?_, ?_, rfl⟩
    · unfold stokOf findPaket
      simp only [updatePenyewaan_pakets, updatePaket_pakets]
      have hpres : (findBy Paket.id
          (({ p with stok := p.stok - (d.jumlah : Int) } : Paket).id) db.pakets).isSome := by
        show (findBy Paket.id p.id db.pakets).isSome
        rw [hpid]
        show (findPaket db pid).isSome
        rw [hp]
        rfl
      have h2 : findBy Paket.id pid
          (replaceBy Paket.id { p with stok := p.stok - (d.jumlah : Int) } db.pakets) =
          some { p with stok := p.stok - (d.jumlah : Int) } := by
        rw [← hpid]
        exact findBy_replaceBy_eq Paket.id
          { p with stok := p.stok - (d.jumlah : Int) } db.pakets hpres
      rw [h2]
    · unfold statusOf findPenyewaan
      simp only [updatePenyewaan_penyewaans, updatePaket_penyewaans]
      have hpres : (findBy Penyewaan.id
          (({ o with status := newStatus } : Penyewaan).id) db.penyewaans).isSome := by
        show (findBy Penyewaan.id o.id db.penyewaans).isSome
        rw [hoid]
        show (findPenyewaan db oid).isSome
        rw [ho]
        rfl
      have h2 : findBy Penyewaan.id oid
          (replaceBy Penyewaan.id { o with status := newStatus } db.penyewaans) =
          some { o with status := newStatus } := by
        rw [← hoid]
        exact findBy_replaceBy_eq Penyewaan.id
          { o with status := newStatus } db.penyewaans hpres
      rw [h2]
      rfl

/-- Witness for C4: reactivating the cancelled order of `dbC4` to pending
with stock 0 fails and mutates nothing. -/
theorem C4_reactivation_guard_witness :
    (dbC4.penyewaans.map Penyewaan.id).Nodup ∧
    ((0 : Int) < (1 : Nat) →
      save_model dbC4 10 OrderStatus.pending = (dbC4, [AdminMsg.insufficientStock])) ∧
    (((1 : Nat) : Int) ≤ (0 : Int) →
      stokOf (save_model dbC4 10 OrderStatus.pending).1 1 = 0 - ((1 : Nat) : Int) ∧
      statusOf (save_model dbC4 10 OrderStatus.pending).1 10 = some OrderStatus.pending ∧
      (save_model dbC4 10 OrderStatus.pending).2 = [AdminMsg.stockReduced 1]) :=
  ⟨by decide,
   (C4_reactivation_guard dbC4 10 OrderStatus.pending
     { id := 10, pelangganUser := 7, paket := some 1, tglPasang := 0,
       ongkosKirim := 0, status := OrderStatus.cancelled, tanggalDibuat := 0 }
     { penyewaan := 10, jumlah := 1, hargaSatuan := 100 } 1
     { id := 1, harga := 100, stok := 0 }
     (by decide) (by decide) (by decide) (by decide) (by decide) (by decide)
     (by decide)).1,
   (C4_reactivation_guard dbC4 10 OrderStatus.pending
     { id := 10, pelangganUser := 7, paket := some 1, tglPasang := 0,
       ongkosKirim := 0, status := OrderStatus.cancelled, tanggalDibuat := 0 }
     { penyewaan := 10, jumlah := 1, hargaSatuan := 100 } 1
     { id := 1, harga := 100, stok := 0 }
     (by decide) (by decide) (by decide) (by decide) (by decide) (by decide)
     (by decide)).2⟩

/-- Store for the release witness: a confirmed order of quantity 2 against
a package with stock 1. -/
def dbC5 : DB :=
  { pakets := [{ id := 1, harga := 100, stok := 1 }],
    penyewaans :=
      [{ id := 10, pelangganUser := 7, paket := some 1, tglPasang := 0,
         ongkosKirim := 0, status := OrderStatus.confirmed, tanggalDibuat := 0 }],
    details := [{ penyewaan := 10, jumlah := 2, hargaSatuan := 100 }],
    transaksis := [], notifs := [], nextId := 12 }

/-- C5: a staff edit moving an order from an active status
(pending/confirmed) to an inactive one (cancelled/completed) increments the
package stock by exactly the single order-line quantity, exactly once, and
applies the new status. -/
theorem C5_release_on_inactive (db : DB) (oid : Nat) (newStatus : OrderStatus)
    (o : Penyewaan) (d : DetailPenyewaan) (pid : Nat) (p : Paket)
    (ho : findPenyewaan db oid = some o)
    (hact : isActive o.status = true)
    (hinact : isInactive newStatus = true)
    (hd : firstDetail db oid = some d)
    (hpak : o.paket = some pid)
    (hp : findPaket db pid = some p) :
    stokOf (save_model db oid newStatus).1 pid = p.stok + (d.jumlah : Int) ∧
    statusOf (save_model db oid newStatus).1 oid = some newStatus ∧
    (save_model db oid newStatus).2 = [AdminMsg.stockReturned d.jumlah] := by
  have hoid : o.id = oid := findBy_key Penyewaan.id oid db.penyewaans o ho
  have hpid : p.id = pid := findBy_key Paket.id pid db.pakets p hp
  have hbind : (({ o with status := newStatus } : Penyewaan).paket.bind (findPaket db)) =
      some p := by
    show (o.paket.bind (findPaket db)) = some p
    rw [hpak]
    exact hp
  have hcond1 : (isActive o.status && isInactive newStatus) = true := by
    rw [hact, hinact]
    rfl
  unfold save_model
  rw [ho]
  simp only [hcond1, if_true, hd, hbind]
  refine ⟨?_, ?_, trivial⟩
  · unfold stokOf findPaket
    simp only [updatePenyewaan_pakets, updatePaket_pakets]
    have hpres : (findBy Paket.id
        (({ p with stok := p.stok + (d.jumlah : Int) } : Paket).id) db.pakets).isSome := by
      show (findBy Paket.id p.id db.pakets).isSome
      rw [hpid]
      show (findPaket db pid).isSome
      rw [hp]
      rfl
    have h2 : findBy Paket.id pid
        (replaceBy Paket.id { p with stok := p.stok + (d.jumlah : Int) } db.pakets) =
        some { p with stok := p.stok + (d.jumlah : Int) } := by
      rw [← hpid]
      exact findBy_replaceBy_eq Paket.id
        { p with stok := p.stok + (d.jumlah : Int) } db.pakets hpres
    rw [h2]
  · unfold statusOf findPenyewaan
    simp only [updatePenyewaan_penyewaans, updatePaket_penyewaans]
    have hpres : (findBy Penyewaan.id
        (({ o with status := newStatus } : Penyewaan).id) db.penyewaans).isSome := by
      show (findBy Penyewaan.id o.id db.penyewaans).isSome
      rw [hoid]
      show (findPenyewaan db oid).isSome
      rw [ho]
      rfl
    have h2 : findBy Penyewaan.id oid
        (replaceBy Penyewaan.id { o with status := newStatus } db.penyewaans) =
        some { o with status := newStatus } := by
      rw [← hoid]
      exact findBy_replaceBy_eq Penyewaan.id
        { o with status := newStatus } db.penyewaans hpres
    rw [h2]
    rfl

/-- Witness for C5 at the spec scenario: confirmed order, quantity 2,
stock 1, set to completed; stock becomes 3. -/
theorem C5_release_on_inactive_witness :
    findPenyewaan dbC5 10 =
      some { id := 10, pelangganUser := 7, paket := some 1, tglPasang := 0,
             ongkosKirim := 0, status := OrderStatus.confirmed, tanggalDibuat := 0 } ∧
    (stokOf (save_model dbC5 10 OrderStatus.completed).1 1 = 1 + ((2 : Nat) : Int) ∧
     statusOf (save_model dbC5 10 OrderStatus.completed).1 10 =
       some OrderStatus.completed ∧
     (save_model dbC5 10 OrderStatus.completed).2 = [AdminMsg.stockReturned 2]) ∧
    stokOf (save_model dbC5 10 OrderStatus.completed).1 1 = 3 :=
  ⟨by decide,
   C5_release_on_inactive dbC5 10 OrderStatus.completed
     { id := 10, pelangganUser := 7, paket := some 1, tglPasang := 0,
       ongkosKirim := 0, status := OrderStatus.confirmed, tanggalDibuat := 0 }
     { penyewaan := 10, jumlah := 2, hargaSatuan := 100 } 1
     { id := 1, harga := 100, stok := 1 }
     (by decide) (by decide) (by decide) (by decide) (by decide) (by decide),
   by decide⟩

/-- Store for the booking witness: one package with stock 5, price 100. -/
def dbC1 : DB :=
  { pakets := [{ id := 1, harga := 100, stok := 5 }],
    penyewaans := [], details := [], transaksis := [], notifs := [], nextId := 10 }

/-- C1: a booking request fails without any mutation when the package does
not exist or the requested quantity exceeds its stock; otherwise, in one
step, it decrements the stock by the quantity, creates the order with
status pending, creates exactly one order line whose unit price is the
package price at that instant, and creates one payment with status pending
whose amount equals the order total. -/
theorem C1_booking (db : DB) (user pid : Nat) (jumlah : Nat) (tgl now : Int)
    (hWF : WF db) :
    (findPaket db pid = none →
      booking_view db user pid jumlah tgl now = (BookResult.notFound, db)) ∧
    (∀ p, findPaket db pid = some p → ¬((jumlah : Int) ≤ p.stok) →
      booking_view db user pid jumlah tgl now = (BookResult.insufficientStock, db)) ∧
    (∀ p, findPaket db pid = some p → (jumlah : Int) ≤ p.stok →
      (booking_view db user pid jumlah tgl now).1 = BookResult.ok db.nextId ∧
      stokOf (booking_view db user pid jumlah tgl now).2 pid =
        p.stok - (jumlah : Int) ∧
      statusOf (booking_view db user pid jumlah tgl now).2 db.nextId =
        some OrderStatus.pending ∧
      ((booking_view db user pid jumlah tgl now).2.details.filter
          (fun d => d.penyewaan == db.nextId)) =
        [{ penyewaan := db.nextId, jumlah := jumlah, hargaSatuan := p.harga }] ∧
      transOf (booking_view db user pid jumlah tgl now).2 db.nextId =
        [{ id := db.nextId + 1, penyewaan := db.nextId,
           jumlahBayar := (jumlah : Int) * p.harga, status := TransStatus.pending,
           buktiBayar := none }] ∧
      total_harga (booking_view db user pid jumlah tgl now).2 db.nextId 0 =
        (jumlah : Int) * p.harga) := by
  obtain ⟨hw1, hw2, hw3, hw4, hw5, hw6, hw7⟩ := hWF
  refine ⟨?_, ?_, ?_⟩
  · intro hnone
    unfold booking_view
    rw [hnone]
  · intro p hp hnle
    unfold booking_view
    rw [hp]
    simp only [is_available]
    rw [if_neg (by simpa using hnle)]
  · intro p hp hle
    have hpid : p.id = pid := findBy_key Paket.id pid db.pakets p hp
    have hdfilter : db.details.filter (fun d => d.penyewaan == db.nextId) = [] := by
      rw [List.filter_eq_nil_iff]
      intro d hd
      have := hw5 d hd
      simp
      omega
    have htfilter : db.transaksis.filter (fun t => t.penyewaan == db.nextId) = [] := by
      rw [List.filter_eq_nil_iff]
      intro t ht
      have := (hw6 t ht).2
      simp
      omega
    have hofind : findBy Penyewaan.id db.nextId db.penyewaans = none := by
      rw [findBy_eq_none_iff]
      intro o ho
      have := hw4 o ho
      omega
    have hfreshT : ∀ u ∈ db.transaksis, u.id ≠ db.nextId + 1 := by
      intro u hu
      have := (hw6 u hu).1
      omega
    unfold booking_view
    rw [hp]
    simp only [is_available]
    rw [if_pos (by simpa using hle)]
    simp only [updatePaket_pakets, updatePaket_penyewaans, updatePaket_details,
      updatePaket_transaksis, updatePaket_notifs, updatePaket_nextId,
      addNotif_pakets, addNotif_penyewaans, addNotif_details, addNotif_transaksis,
      addNotif_nextId, addNotif_notifs]
    rw [create_payment_notification_append _ _ _ _ _ _ _ hfreshT]
    have hpres : (findBy Paket.id
        (({ p with stok := p.stok - (jumlah : Int) } : Paket).id) db.pakets).isSome := by
      show (findBy Paket.id p.id db.pakets).isSome
      rw [hpid]
      show (findPaket db pid).isSome
      rw [hp]
      rfl
    refine ⟨trivial, ?_, ?_, ?_, ?_, ?_⟩
    · unfold stokOf findPaket
      simp only []
      have h2 : findBy Paket.id pid
          (replaceBy Paket.id { p with stok := p.stok - (jumlah : Int) } db.pakets) =
          some { p with stok := p.stok - (jumlah : Int) } := by
        rw [← hpid]
        exact findBy_replaceBy_eq Paket.id
          { p with stok := p.stok - (jumlah : Int) } db.pakets hpres
      rw [h2]
    · unfold statusOf findPenyewaan
      simp only []
      rw [findBy_append, hofind]
      simp only []
      rw [findBy_cons, if_pos rfl]
      rfl
    · simp only []
      rw [List.filter_append, hdfilter]
      simp
    · unfold transOf
      simp only []
      rw [List.filter_append, htfilter]
      simp only [List.nil_append, List.filter_cons]
      rw [if_pos (by simp)]
      simp only [List.filter_nil]
      have htot : total_harga
          ⟨replaceBy Paket.id { p with stok := p.stok - (jumlah : Int) } db.pakets,
           db.penyewaans ++
             [{ id := db.nextId, pelangganUser := user, paket := some pid,
                tglPasang := tgl, ongkosKirim := 0, status := OrderStatus.pending,
                tanggalDibuat := now }],
           db.details ++
             [{ penyewaan := db.nextId, jumlah := jumlah, hargaSatuan := p.harga }],
           db.transaksis,
           db.notifs ++ [{ user := none, jenis := NotifJenis.info, judul := "Pesanan Baru" }] ++
             [{ user := some user, jenis := NotifJenis.success, judul := "Pesanan Berhasil" }],
           db.nextId⟩ db.nextId 0 = (jumlah : Int) * p.harga := by
        unfold total_harga
        simp only []
        rw [List.filter_append, hdfilter]
        simp
      rw [htot]
    · unfold total_harga
      simp only []
      rw [List.filter_append, hdfilter]
      simp

/-- Witness for C1 on the concrete store: stock 5, price 100, booking two
units. -/
theorem C1_booking_witness :
    WF dbC1 ∧
    ((findPaket dbC1 1 = none →
      booking_view dbC1 7 1 2 0 0 = (BookResult.notFound, dbC1)) ∧
    (∀ p, findPaket dbC1 1 = some p → ¬(((2 : Nat) : Int) ≤ p.stok) →
      booking_view dbC1 7 1 2 0 0 = (BookResult.insufficientStock, dbC1)) ∧
    (∀ p, findPaket dbC1 1 = some p → ((2 : Nat) : Int) ≤ p.stok →
      (booking_view dbC1 7 1 2 0 0).1 = BookResult.ok dbC1.nextId ∧
      stokOf (booking_view dbC1 7 1 2 0 0).2 1 = p.stok - ((2 : Nat) : Int) ∧
      statusOf (booking_view dbC1 7 1 2 0 0).2 dbC1.nextId =
        some OrderStatus.pending ∧
      ((booking_view dbC1 7 1 2 0 0).2.details.filter
          (fun d => d.penyewaan == dbC1.nextId)) =
        [{ penyewaan := dbC1.nextId, jumlah := 2, hargaSatuan := p.harga }] ∧
      transOf (booking_view dbC1 7 1 2 0 0).2 dbC1.nextId =
        [{ id := dbC1.nextId + 1, penyewaan := dbC1.nextId,
           jumlahBayar := ((2 : Nat) : Int) * p.harga, status := TransStatus.pending,
           buktiBayar := none }] ∧
      total_harga (booking_view dbC1 7 1 2 0 0).2 dbC1.nextId 0 =
        ((2 : Nat) : Int) * p.harga)) :=
  ⟨by decide, C1_booking dbC1 7 1 2 0 0 (by decide)⟩

/-- Store for the sweep witness: a pending order created at time 0 with no
payment proof, quantity 1, package stock 4; swept at time 10800 (three
hours later). -/
def dbC6 : DB :=
  { pakets := [{ id := 1, harga := 100, stok := 4 }],
    penyewaans :=
      [{ id := 10, pelangganUser := 7, paket := some 1, tglPasang := 0,
         ongkosKirim := 0, status := OrderStatus.pending, tanggalDibuat := 0 }],
    details := [{ penyewaan := 10, jumlah := 1, hargaSatuan := 100 }],
    transaksis := [{ id := 11, penyewaan := 10, jumlahBayar := 100,
                     status := TransStatus.pending, buktiBayar := none }],
    notifs := [], nextId := 12 }

/-- C6: the sweep selects exactly the pending orders created strictly more
than two hours before `now` with no payment proof on any of their payment
records; each selected order is set to `cancelled`, one warning
notification is created for its customer, and its first order-line
quantity is restored to its package (`sweepGain`); unselected orders are
untouched, and the returned count is the number of selected (hence
cancelled) orders. -/
theorem C6_sweep (db : DB) (now : Int) (hWF : WF db) :
    (cancel_expired_pending_orders db now).1 =
      (db.penyewaans.filter (expiredFilter db now)).length ∧
    (∀ o ∈ db.penyewaans, expiredFilter db now o = true →
      statusOf (cancel_expired_pending_orders db now).2 o.id =
        some OrderStatus.cancelled) ∧
    (∀ o ∈ db.penyewaans, expiredFilter db now o = false →
      findPenyewaan (cancel_expired_pending_orders db now).2 o.id = some o) ∧
    (cancel_expired_pending_orders db now).2.notifs =
      db.notifs ++ (db.penyewaans.filter (expiredFilter db now)).map warnNotif ∧
    (∀ pid, stokOf (cancel_expired_pending_orders db now).2 pid =
      stokOf db pid +
        ((db.penyewaans.filter (expiredFilter db now)).map
          (fun o => sweepGain db o pid)).sum) ∧
    (∀ o ∈ db.penyewaans, ∀ d pid, firstDetail db o.id = some d →
      o.paket = some pid → sweepGain db o pid = (d.jumlah : Int)) := by
  obtain ⟨hw1, hw2, hw3, hw4, hw5, hw6, hw7⟩ := hWF
  have hC : cancel_expired_pending_orders db now =
      ((db.penyewaans.filter (expiredFilter db now)).length,
       (db.penyewaans.filter (expiredFilter db now)).foldl sweepOne db) := rfl
  have hsubnd : ((db.penyewaans.filter (expiredFilter db now)).map
      Penyewaan.id).Nodup :=
    hw2.sublist ((List.filter_sublist db.penyewaans).map Penyewaan.id)
  have hL : ∀ o ∈ db.penyewaans.filter (expiredFilter db now),
      findPenyewaan db o.id = some o := fun o h =>
    findBy_of_mem_nodup Penyewaan.id o db.penyewaans hw2 (List.mem_of_mem_filter h)
  have hfind := sweep_foldl_find (db.penyewaans.filter (expiredFilter db now)) db
    hL hsubnd
  obtain ⟨hf1, hf2, hf3, hf4, hf5, hf6, hf7⟩ :=
    sweep_foldl (db.penyewaans.filter (expiredFilter db now)) db
  rw [hC]
  refine ⟨rfl, ?_, ?_, hf6, hf7, ?_⟩
  · intro o ho hsel
    unfold statusOf
    rw [hfind o.id]
    have homem : o ∈ db.penyewaans.filter (expiredFilter db now) :=
      List.mem_filter.mpr ⟨ho, hsel⟩
    rw [findBy_of_mem_nodup Penyewaan.id o _ hsubnd homem]
    rfl
  · intro o ho hsel
    rw [hfind o.id]
    have hnone : findBy Penyewaan.id o.id (db.penyewaans.filter (expiredFilter db now)) =
        none := by
      rw [findBy_eq_none_iff]
      intro z hz hzk
      have hzo : z = o := eq_of_mem_key_nodup Penyewaan.id z o db.penyewaans hw2
        (List.mem_of_mem_filter hz) ho hzk
      subst hzo
      rw [(List.mem_filter.mp hz).2] at hsel
      exact absurd hsel (by simp)
    rw [hnone]
    exact findBy_of_mem_nodup Penyewaan.id o db.penyewaans hw2 ho
  · intro o ho d pid hd hpak
    unfold sweepGain
    have hmem : pid ∈ db.pakets.map Paket.id := by
      refine hw7 o ho pid ?_
      rw [hpak]
      simp
    rw [if_pos ⟨by rw [hd]; rfl, hpak, hmem⟩]
    unfold orderQty
    rw [show db.details.find? (fun x => x.penyewaan == o.id) = some d from hd]

/-- Witness for C6 at the spec scenario (3-hour-old pending order, no
proof, quantity 1, stock 4): stock becomes 5, the order is cancelled, one
customer notification exists, and the sweep reports one cancellation. -/
theorem C6_sweep_witness :
    WF dbC6 ∧
    ((cancel_expired_pending_orders dbC6 10800).1 =
      (dbC6.penyewaans.filter (expiredFilter dbC6 10800)).length ∧
    (∀ o ∈ dbC6.penyewaans, expiredFilter dbC6 10800 o = true →
      statusOf (cancel_expired_pending_orders dbC6 10800).2 o.id =
        some OrderStatus.cancelled) ∧
    (∀ o ∈ dbC6.penyewaans, expiredFilter dbC6 10800 o = false →
      findPenyewaan (cancel_expired_pending_orders dbC6 10800).2 o.id = some o) ∧
    (cancel_expired_pending_orders dbC6 10800).2.notifs =
      dbC6.notifs ++
        (dbC6.penyewaans.filter (expiredFilter dbC6 10800)).map warnNotif ∧
    (∀ pid, stokOf (cancel_expired_pending_orders dbC6 10800).2 pid =
      stokOf dbC6 pid +
        ((dbC6.penyewaans.filter (expiredFilter dbC6 10800)).map
          (fun o => sweepGain dbC6 o pid)).sum) ∧
    (∀ o ∈ dbC6.penyewaans, ∀ d pid, firstDetail dbC6 o.id = some d →
      o.paket = some pid → sweepGain dbC6 o pid = (d.jumlah : Int))) ∧
    (cancel_expired_pending_orders dbC6 10800).1 = 1 ∧
    stokOf (cancel_expired_pending_orders dbC6 10800).2 1 = 5 ∧
    statusOf (cancel_expired_pending_orders dbC6 10800).2 10 =
      some OrderStatus.cancelled ∧
    (cancel_expired_pending_orders dbC6 10800).2.notifs =
      [{ user := some 7, jenis := NotifJenis.warning, judul := "Pesanan Dibatalkan" }] :=
  ⟨by decide, C6_sweep dbC6 10800 (by decide), by decide, by decide, by decide,
   by decide⟩

/-- After one sweep, no order still satisfies the sweep filter: the
selected ones are now `cancelled`, and the unselected ones failed the
filter already (the payment records are untouched by the sweep). -/
theorem sweep_second_empty (db : DB) (now : Int) (hWF : WF db) :
    (cancel_expired_pending_orders db now).2.penyewaans.filter
      (expiredFilter (cancel_expired_pending_orders db now).2 now) = [] := by
  obtain ⟨hw1, hw2, hw3, hw4, hw5, hw6, hw7⟩ := hWF
  have hC : (cancel_expired_pending_orders db now).2 =
      (db.penyewaans.filter (expiredFilter db now)).foldl sweepOne db := rfl
  have hsubnd : ((db.penyewaans.filter (expiredFilter db now)).map
      Penyewaan.id).Nodup :=
    hw2.sublist ((List.filter_sublist db.penyewaans).map Penyewaan.id)
  have hL : ∀ o ∈ db.penyewaans.filter (expiredFilter db now),
      findPenyewaan db o.id = some o := fun o h =>
    findBy_of_mem_nodup Penyewaan.id o db.penyewaans hw2 (List.mem_of_mem_filter h)
  have hfind := sweep_foldl_find (db.penyewaans.filter (expiredFilter db now)) db
    hL hsubnd
  obtain ⟨hf1, hf2, hf3, hf4, hf5, hf6, hf7⟩ :=
    sweep_foldl (db.penyewaans.filter (expiredFilter db now)) db
  have hnd1 : (((db.penyewaans.filter (expiredFilter db now)).foldl
      sweepOne db).penyewaans.map Penyewaan.id).Nodup := by
    rw [hf5]
    exact hw2
  rw [hC]
  rw [List.filter_eq_nil_iff]
  intro z hz
  rcases sweep_foldl_mem (db.penyewaans.filter (expiredFilter db now)) db z hz
    with hzm | ⟨o, hoL, hzo⟩
  · intro hsel1
    have hexp : ∀ (dbx : DB) (zz : Penyewaan), expiredFilter dbx now zz =
        (zz.status == OrderStatus.pending && decide (zz.tanggalDibuat < now - 7200) &&
          !(dbx.transaksis.any (fun t => t.penyewaan == zz.id && t.buktiBayar.isSome))) :=
      fun _ _ => rfl
    rw [hexp _ z, hf2] at hsel1
    have hself : expiredFilter db now z = true := by
      rw [hexp db z]
      exact hsel1
    have hzL : z ∈ db.penyewaans.filter (expiredFilter db now) :=
      List.mem_filter.mpr ⟨hzm, hself⟩
    have h1 : findPenyewaan ((db.penyewaans.filter (expiredFilter db now)).foldl
        sweepOne db) z.id = some { z with status := OrderStatus.cancelled } := by
      rw [hfind z.id, findBy_of_mem_nodup Penyewaan.id z _ hsubnd hzL]
    have h2 : findPenyewaan ((db.penyewaans.filter (expiredFilter db now)).foldl
        sweepOne db) z.id = some z :=
      findBy_of_mem_nodup Penyewaan.id z _ hnd1 hz
    rw [h1] at h2
    have hzz := Option.some_inj.mp h2
    have hst : z.status = OrderStatus.cancelled := by
      rw [← hzz]
    rw [Bool.and_eq_true, Bool.and_eq_true] at hsel1
    have hpend := hsel1.1.1
    rw [beq_iff_eq, hst] at hpend
    exact absurd hpend (by simp)
  · intro hsel1
    rw [hzo] at hsel1
    simp [expiredFilter] at hsel1

/-- C7: the sweep is idempotent — running it twice in a row with no
intervening writes cancels each qualifying order once; the second run
selects nothing, returns zero, and leaves the store exactly as the first
run left it. -/
theorem C7_sweep_idempotent (db : DB) (now : Int) (hWF : WF db) :
    (cancel_expired_pending_orders
      (cancel_expired_pending_orders db now).2 now).1 = 0 ∧
    (cancel_expired_pending_orders
      (cancel_expired_pending_orders db now).2 now).2 =
      (cancel_expired_pending_orders db now).2 := by
  have hempty := sweep_second_empty db now hWF
  unfold cancel_expired_pending_orders
  unfold cancel_expired_pending_orders at hempty
  rw [hempty]
  exact ⟨rfl, rfl⟩

/-- Witness for C7 on the concrete sweep store. -/
theorem C7_sweep_idempotent_witness :
    WF dbC6 ∧
    ((cancel_expired_pending_orders
        (cancel_expired_pending_orders dbC6 10800).2 10800).1 = 0 ∧
     (cancel_expired_pending_orders
        (cancel_expired_pending_orders dbC6 10800).2 10800).2 =
       (cancel_expired_pending_orders dbC6 10800).2) :=
  ⟨by decide, C7_sweep_idempotent dbC6 10800 (by decide)⟩

/-- Store for the C10 witness: an expired pending order whose package
reference is null. -/
def dbC10 : DB :=
  { pakets := [{ id := 1, harga := 100, stok := 4 }],
    penyewaans :=
      [{ id := 10, pelangganUser := 7, paket := none, tglPasang := 0,
         ongkosKirim := 0, status := OrderStatus.pending, tanggalDibuat := 0 }],
    details := [{ penyewaan := 10, jumlah := 1, hargaSatuan := 100 }],
    transaksis := [], notifs := [], nextId := 12 }

/-- C10: an expired pending order with a null package reference or no
order line is still cancelled by the sweep, still produces the customer
warning notification, and is still counted, but its sweep step performs no
stock mutation at all. -/
theorem C10_sweep_degenerate (db : DB) (now : Int) (o : Penyewaan)
    (hWF : WF db) (ho : o ∈ db.penyewaans)
    (hsel : expiredFilter db now o = true)
    (hnull : firstDetail db o.id = none ∨ o.paket = none) :
    statusOf (cancel_expired_pending_orders db now).2 o.id =
      some OrderStatus.cancelled ∧
    warnNotif o ∈ (cancel_expired_pending_orders db now).2.notifs ∧
    (cancel_expired_pending_orders db now).1 =
      (db.penyewaans.filter (expiredFilter db now)).length ∧
    o ∈ db.penyewaans.filter (expiredFilter db now) ∧
    (∀ pid, sweepGain db o pid = 0) ∧
    (sweepOne db o).pakets = db.pakets := by
  obtain ⟨hw1, hw2, hw3, hw4, hw5, hw6, hw7⟩ := hWF
  have hC : (cancel_expired_pending_orders db now).2 =
      (db.penyewaans.filter (expiredFilter db now)).foldl sweepOne db := rfl
  have hsubnd : ((db.penyewaans.filter (expiredFilter db now)).map
      Penyewaan.id).Nodup :=
    hw2.sublist ((List.filter_sublist db.penyewaans).map Penyewaan.id)
  have hL : ∀ o2 ∈ db.penyewaans.filter (expiredFilter db now),
      findPenyewaan db o2.id = some o2 := fun o2 h =>
    findBy_of_mem_nodup Penyewaan.id o2 db.penyewaans hw2 (List.mem_of_mem_filter h)
  have hfind := sweep_foldl_find (db.penyewaans.filter (expiredFilter db now)) db
    hL hsubnd
  obtain ⟨hf1, hf2, hf3, hf4, hf5, hf6, hf7⟩ :=
    sweep_foldl (db.penyewaans.filter (expiredFilter db now)) db
  have homem : o ∈ db.penyewaans.filter (expiredFilter db now) :=
    List.mem_filter.mpr ⟨ho, hsel⟩
  refine ⟨?_, ?_, rfl, homem, ?_, ?_⟩
  · unfold statusOf
    rw [hC, hfind o.id, findBy_of_mem_nodup Penyewaan.id o _ hsubnd homem]
    rfl
  · rw [hC, hf6]
    exact List.mem_append_right db.notifs
      (List.mem_map_of_mem warnNotif homem)
  · intro pid
    unfold sweepGain
    rcases hnull with hnd | hnp
    · rw [if_neg (by
        rintro ⟨h1, _, _⟩
        rw [hnd] at h1
        exact absurd h1 (by simp))]
    · rw [if_neg (by
        rintro ⟨_, h2, _⟩
        rw [hnp] at h2
        exact absurd h2 (by simp))]
  · unfold sweepOne
    rcases hnull with hnd | hnp
    · rw [hnd]
      cases o.paket.bind (findPaket db) <;> rfl
    · rw [hnp]
      cases firstDetail db o.id <;> rfl

/-- Witness for C10: sweeping the store whose expired order has a null
package reference. -/
theorem C10_sweep_degenerate_witness :
    WF dbC10 ∧
    (statusOf (cancel_expired_pending_orders dbC10 10800).2 10 =
      some OrderStatus.cancelled ∧
    warnNotif { id := 10, pelangganUser := 7, paket := none, tglPasang := 0,
                ongkosKirim := 0, status := OrderStatus.pending, tanggalDibuat := 0 }
      ∈ (cancel_expired_pending_orders dbC10 10800).2.notifs ∧
    (cancel_expired_pending_orders dbC10 10800).1 =
      (dbC10.penyewaans.filter (expiredFilter dbC10 10800)).length ∧
    { id := 10, pelangganUser := 7, paket := none, tglPasang := 0,
      ongkosKirim := 0, status := OrderStatus.pending, tanggalDibuat := 0 }
      ∈ dbC10.penyewaans.filter (expiredFilter dbC10 10800) ∧
    (∀ pid, sweepGain dbC10
      { id := 10, pelangganUser := 7, paket := none, tglPasang := 0,
        ongkosKirim := 0, status := OrderStatus.pending, tanggalDibuat := 0 } pid = 0) ∧
    (sweepOne dbC10
      { id := 10, pelangganUser := 7, paket := none, tglPasang := 0,
        ongkosKirim := 0, status := OrderStatus.pending, tanggalDibuat := 0 }).pakets =
      dbC10.pakets) ∧
    (cancel_expired_pending_orders dbC10 10800).2.pakets = dbC10.pakets :=
  ⟨by decide,
   C10_sweep_degenerate dbC10 10800
     { id := 10, pelangganUser := 7, paket := none, tglPasang := 0,
       ongkosKirim := 0, status := OrderStatus.pending, tanggalDibuat := 0 }
     (by decide) (by decide) (by decide) (Or.inr rfl),
   by decide⟩

/-! ### C2: the conservation law -/

def dbC2 : DB :=
  { pakets := [{ id := 1, harga := 100, stok := 3 }],
    penyewaans :=
      [{ id := 2, pelangganUser := 7, paket := some 1, tglPasang := 0,
         ongkosKirim := 0, status := OrderStatus.pending, tanggalDibuat := 0 }],
    details := [{ penyewaan := 2, jumlah := 1, hargaSatuan := 100 }],
    transaksis :=
      [{ id := 3, penyewaan := 2, jumlahBayar := 100,
         status := TransStatus.paid, buktiBayar := none }],
    notifs := [], nextId := 4 }

/-- C2: the conservation law. For every well-formed store and every package,
the quantity `available stock + quantities reserved by active
(pending/confirmed) orders` is left unchanged by each core operation:
booking, a staff status edit through `save_model`, the bulk
payment-verification action, and the expiry sweep. Equivalently, an order
order holds stock out of its package exactly while its status is active,
so the per-package total is an invariant of the system. -/
theorem C2_conservation (db : DB) (hWF : WF db) :
    (∀ user pid jumlah tgl now,
      conserved db (booking_view db user pid jumlah tgl now).2) ∧
    (∀ oid st, conserved db (save_model db oid st).1) ∧
    (∀ batch, conserved db (konfirmasi_pembayaran_masal db batch).1) ∧
    (∀ now, conserved db (cancel_expired_pending_orders db now).2) :=
  ⟨fun user pid jumlah tgl now => conserved_booking db user pid jumlah tgl now hWF,
   fun oid st => conserved_save_model db oid st hWF,
   fun batch => conserved_kfold batch db 0 0 hWF,
   fun now => conserved_sweep db now hWF⟩

theorem C2_conservation_witness :
    WF dbC2 ∧
    ((∀ user pid jumlah tgl now,
        conserved dbC2 (booking_view dbC2 user pid jumlah tgl now).2) ∧
     (∀ oid st, conserved dbC2 (save_model dbC2 oid st).1) ∧
     (∀ batch, conserved dbC2 (konfirmasi_pembayaran_masal dbC2 batch).1) ∧
     (∀ now, conserved dbC2 (cancel_expired_pending_orders dbC2 now).2)) :=
  ⟨by decide, C2_conservation dbC2 (by decide)⟩

/-! ### C3: stock never negative -/

def dbC3 : DB :=
  { pakets := [{ id := 1, harga := 100, stok := 2 }],
    penyewaans :=
      [{ id := 2, pelangganUser := 7, paket := some 1, tglPasang := 0,
         ongkosKirim := 0, status := OrderStatus.confirmed, tanggalDibuat := 0 }],
    details := [{ penyewaan := 2, jumlah := 1, hargaSatuan := 100 }],
    transaksis :=
      [{ id := 3, penyewaan := 2, jumlahBayar := 100,
         status := TransStatus.paid, buktiBayar := none }],
    notifs := [], nextId := 4 }

/-- C3: starting from a store whose package stocks are all non-negative,
every core operation — booking, a staff status edit (including
reactivation), the bulk payment verification, the expiry sweep, and the
staff mark-units-as-broken decrement — again yields only non-negative
stock counts; no operation drives a stock below zero. -/
theorem C3_stock_nonneg (db : DB) (h : stokNonneg db) :
    (∀ user pid jumlah tgl now,
      stokNonneg (booking_view db user pid jumlah tgl now).2) ∧
    (∀ oid st, stokNonneg (save_model db oid st).1) ∧
    (∀ batch, stokNonneg (konfirmasi_pembayaran_masal db batch).1) ∧
    (∀ now, stokNonneg (cancel_expired_pending_orders db now).2) ∧
    (∀ batch, stokNonneg (mark_units_as_broken db batch).1) :=
  ⟨fun user pid jumlah tgl now => nonneg_booking db user pid jumlah tgl now h,
   fun oid st => nonneg_save_model db oid st h,
   fun batch => nonneg_konfirmasi db batch h,
   fun now => nonneg_sweep db now h,
   fun batch => nonneg_broken_fold batch (db, 0) h⟩

theorem C3_stock_nonneg_witness :
    stokNonneg dbC3 ∧
    ((∀ user pid jumlah tgl now,
        stokNonneg (booking_view dbC3 user pid jumlah tgl now).2) ∧
     (∀ oid st, stokNonneg (save_model dbC3 oid st).1) ∧
     (∀ batch, stokNonneg (konfirmasi_pembayaran_masal dbC3 batch).1) ∧
     (∀ now, stokNonneg (cancel_expired_pending_orders dbC3 now).2) ∧
     (∀ batch, stokNonneg (mark_units_as_broken dbC3 batch).1)) :=
  ⟨by decide, C3_stock_nonneg dbC3 (by decide)⟩

end DSlighting
